import Mathlib

/-!
Shallow embedding of the AutoCare backend core: the audited-mutation and
rollback subsystem (`app/crud/audit.py`, `app/db/connection.py`) and the
repair-order assignment lifecycle (`app/core/repair_order.py`,
`app/crud/repair_assignment.py`, `app/crud/repair_order.py`,
`app/api/staff.py`).

Modelling conventions:
* Machine floats (`quantity`, `unit_price`, `hourly_rate`, `time_worked`)
  are modelled as rationals.
* Serialized row snapshots (the JSON dictionaries stored in
  `audit_log.old_data` / `new_data`) are modelled as association lists of
  field name to value (`Obj`); JSON serialization is injective on these,
  so snapshot equality stands in for byte equality of the serialized form.
* The audit log is kept newest-first: `get_audit_logs` orders rows by
  `operated_at DESC` and the spec assumes a monotonically increasing
  clock, so the list order mirrors reverse insertion order.
* `random.choice` is modelled by an extra index argument `k`; the chosen
  element is the one at position `k % length` of the eligible list, which
  ranges over all possible choices.
-/

namespace AutoCare

/-- A scalar value stored in a row or in a serialized snapshot. -/
inductive Val where
  | str (s : String)
  | num (q : ℚ)
  | null
deriving DecidableEq, Repr

/-- A row, or a serialized snapshot of a row: field name to value pairs. -/
abbrev Obj := List (String × Val)

/-- First value bound to field `k`, as Python dict lookup. -/
def Obj.lookupField (o : Obj) (k : String) : Option Val :=
  (o.find? (fun kv => kv.1 == k)).map (fun kv => kv.2)

/-- `OperationType` from `app/models/enums.py`. -/
inductive OperationType where
  | INSERT
  | UPDATE
  | DELETE
deriving DecidableEq, Repr

/-- One row of the `audit_log` table (`app/models/audit.py`); `operated_at`
is represented by the position in the newest-first log list. -/
structure AuditLogEntry where
  table_name : String
  record_id : Int
  operation : OperationType
  old_data : Option Obj
  new_data : Option Obj
deriving DecidableEq, Repr

/-- Models the truthiness guard in `AuditLogService.log_audit_event`: a
`None` or empty dict is stored as SQL NULL. -/
def serializeIfNonempty (o : Option Obj) : Option Obj :=
  match o with
  | none => none
  | some d => if d.isEmpty then none else some d

/-- `AuditLogService.log_audit_event` (`app/crud/audit.py`): append exactly
one audit row; the new row is the newest, hence at the head. -/
def log_audit_event (log : List AuditLogEntry) (table_name : String)
    (record_id : Int) (operation : OperationType)
    (old_data new_data : Option Obj) : List AuditLogEntry :=
  { table_name := table_name, record_id := record_id, operation := operation,
    old_data := serializeIfNonempty old_data,
    new_data := serializeIfNonempty new_data } :: log

/-- `AuditLogService.get_audit_logs`: newest-first, optional table and
operation filters, at most `limit` rows. -/
def get_audit_logs (log : List AuditLogEntry) (table_name : Option String)
    (operation : Option OperationType) (limit : Nat) : List AuditLogEntry :=
  (log.filter (fun e =>
    (match table_name with
     | some t => e.table_name == t
     | none => true) &&
    (match operation with
     | some op => e.operation == op
     | none => true))).take limit

/-! ## The relational store, as seen by `Database` (`app/db/connection.py`) -/

abbrev Table := List Obj

abbrev DB := List (String × Table)

/-- Rows of table `t` (an absent table reads as empty). -/
def DB.getTable (db : DB) (t : String) : Table :=
  ((db.find? (fun nt => nt.1 == t)).map (fun nt => nt.2)).getD []

/-- Replace the rows of table `t`. -/
def DB.setTable (db : DB) (t : String) (rows : Table) : DB :=
  if (db.find? (fun nt => nt.1 == t)).isSome then
    db.map (fun nt => if nt.1 == t then (nt.1, rows) else nt)
  else
    db ++ [(t, rows)]

/-- A row satisfies the WHERE clause `idCol = v` used by the rollback code. -/
def rowMatches (idCol : String) (v : Int) (row : Obj) : Bool :=
  Obj.lookupField row idCol == some (Val.num (v : ℚ))

/-- `Database.insert_data` drops `None`-valued keys before building the
INSERT, and inserts nothing when no key remains. -/
def stripNulls (o : Obj) : Obj :=
  o.filter (fun kv => !(kv.2 == Val.null))

/-- `Database.insert_data` on a single dict. -/
def DB.insert_data (db : DB) (t : String) (o : Obj) : DB :=
  let data := stripNulls o
  if data.isEmpty then db else db.setTable t (db.getTable t ++ [data])

/-- SQL `UPDATE ... SET` semantics on one row: overwrite the listed
columns, leave the rest. -/
def mergeRow (row : Obj) (data : Obj) : Obj :=
  row.map (fun kv => (kv.1, (Obj.lookupField data kv.1).getD kv.2))

/-- `Database.update_data` with WHERE clause `idCol = v`. -/
def DB.update_data (db : DB) (t : String) (data : Obj) (idCol : String)
    (v : Int) : DB :=
  db.setTable t ((db.getTable t).map
    (fun r => if rowMatches idCol v r then mergeRow r data else r))

/-- `Database.delete_data` with WHERE clause `idCol = v`. -/
def DB.delete_data (db : DB) (t : String) (idCol : String) (v : Int) : DB :=
  db.setTable t ((db.getTable t).filter (fun r => !(rowMatches idCol v r)))

/-! ## Rollback (`AuditLogService.rollback_last_operation`) -/

/-- The distinct exception messages raised by the rollback code. -/
inductive RollbackError where
  | noAuditHistory
  | missingOldData (op : OperationType)
deriving DecidableEq, Repr

/-- Joint state of the store and of the audit log. -/
structure AuditState where
  db : DB
  log : List AuditLogEntry
deriving DecidableEq, Repr

/-- The structural inverse applied by `rollback_last_operation` to the
selected entry: UPDATE restores `old_data` over the row, DELETE reinserts
`old_data`, INSERT deletes the record.  The WHERE clause is the literal
string built by the source, `f"TABLE_id = RECORDID"`, hence the id column
name `t ++ "_id"`.  The inverse writes straight through `Database`
(`db.update_data` / `db.insert_data` / `db.delete_data`), so no audit
entry is produced for it. -/
def applyInverse (s : AuditState) (e : AuditLogEntry) :
    Except RollbackError (String × AuditState) :=
  let t := e.table_name
  let rid := e.record_id
  match e.operation with
  | OperationType.UPDATE =>
    match e.old_data with
    | some od =>
      if od.isEmpty then
        Except.error (RollbackError.missingOldData OperationType.UPDATE)
      else
        Except.ok ("Rolled back last UPDATE to previous state.",
          { s with db := s.db.update_data t od (t ++ "_id") rid })
    | none => Except.error (RollbackError.missingOldData OperationType.UPDATE)
  | OperationType.DELETE =>
    match e.old_data with
    | some od =>
      if od.isEmpty then
        Except.error (RollbackError.missingOldData OperationType.DELETE)
      else
        Except.ok ("Rolled back last DELETE: record re-inserted.",
          { s with db := s.db.insert_data t od })
    | none => Except.error (RollbackError.missingOldData OperationType.DELETE)
  | OperationType.INSERT =>
    Except.ok ("Rolled back last INSERT: record deleted.",
      { s with db := s.db.delete_data t (t ++ "_id") rid })

/-- `AuditLogService.rollback_last_operation`: fetch the newest 100 audit
rows for the table, take the first whose `record_id` matches, apply the
structural inverse; raise `NoAuditHistory` when no row matches. -/
def rollback_last_operation (s : AuditState) (table_name : String)
    (record_id : Int) : Except RollbackError (String × AuditState) :=
  match (get_audit_logs s.log (some table_name) none 100).find?
      (fun e => e.record_id == record_id) with
  | some e => applyInverse s e
  | none => Except.error RollbackError.noAuditHistory

/-- Modelled from the spec: `rollback_most_recent` is invoked by
`app/api/admin.py` (`rollback_last_audit_operation`) but has no definition
under src.  Per spec section 4.4 it applies the same inversion logic as
`rollback_last_operation` — which is in src and is taken as the authority
for the inversion — to the single newest entry across all tables,
ignoring record identity, and fails with `NoAuditHistory` when the log is
empty. -/
def rollback_most_recent (s : AuditState) :
    Except RollbackError (String × AuditState) :=
  match s.log.head? with
  | some e => applyInverse s e
  | none => Except.error RollbackError.noAuditHistory

/-- The repository update pattern (as in
`RepairOrderService.update_repair_order_status` or
`MaterialService.update_material`): read the current row, overwrite the
given columns, and log one UPDATE audit event whose `old_data` is the full
pre-update row and whose `new_data` is the full post-update row. -/
def audited_update_row (s : AuditState) (t : String) (rid : Int)
    (newData : Obj) : AuditState :=
  match (s.db.getTable t).find? (rowMatches (t ++ "_id") rid) with
  | some oldRow =>
    { db := s.db.update_data t newData (t ++ "_id") rid,
      log := log_audit_event s.log t rid OperationType.UPDATE
        (some oldRow) (some (mergeRow oldRow newData)) }
  | none => s

/-! ## The assignment-lifecycle data model

Typed rows for the tables touched by the assignment engine, following the
column lists used by the crud layer (`app/crud/*.py`); `app/db/base.py` is
absent from src, so the ORM declarations are not authoritative and the raw
SQL layer is modelled instead. -/

/-- `RepairStatus` from `app/models/enums.py`. -/
inductive RepairStatus where
  | PENDING
  | IN_PROGRESS
  | COMPLETED
  | CANCELLED
deriving DecidableEq, Repr

/-- The string stored in the `status` column of `repair_status`. -/
def RepairStatus.value : RepairStatus → String
  | RepairStatus.PENDING => "Pending"
  | RepairStatus.IN_PROGRESS => "In Progress"
  | RepairStatus.COMPLETED => "Completed"
  | RepairStatus.CANCELLED => "Cancelled"

/-- One row of `repair_order`, with the columns read by
`RepairOrderService.get_repair_order_by_id`; `required_staff_type` holds
the job-type string, timestamps are kept as opaque strings. -/
structure RepairOrderRow where
  order_id : Int
  vehicle_id : Int
  customer_id : Int
  request_id : Int
  required_staff_type : Option String
  status : Option RepairStatus
  order_time : Option String
  finish_time : Option String
  remarks : Option String
deriving DecidableEq, Repr

/-- One row of `repair_assignment`, with the columns used by
`RepairAssignmentService` (`assignment_id, order_id, staff_id, status,
time_worked`). -/
structure RepairAssignmentRow where
  assignment_id : Int
  order_id : Int
  staff_id : Int
  status : String
  time_worked : Option ℚ
deriving DecidableEq, Repr

/-- One row of `staff`, with the columns read by
`RepairAssignmentService.get_eligible_staff`. -/
structure StaffRow where
  staff_id : Int
  jobtype : String
  hourly_rate : ℚ
deriving DecidableEq, Repr

/-- One row of `user`, with the fields `calculate_labor_fee` consults. -/
structure UserRow where
  user_id : Int
  discriminator : String
deriving DecidableEq, Repr

/-- One row of `repair_log`, reduced to the columns the fee calculation
reads. -/
structure RepairLogRow where
  log_id : Int
  order_id : Int
deriving DecidableEq, Repr

/-- One row of `material`, reduced to the columns the fee calculation
reads. -/
structure MaterialRow where
  material_id : Int
  log_id : Int
  quantity : ℚ
  unit_price : ℚ
deriving DecidableEq, Repr

/-- `Material.total_price` (`app/models/repair.py`): the derived column
`quantity * unit_price`. -/
def MaterialRow.total_price (m : MaterialRow) : ℚ :=
  m.quantity * m.unit_price

/-- The whole store, as the assignment engine sees it.  `next_id` models
the shared AUTO_INCREMENT / `LAST_INSERT_ID()` counter. -/
structure EngineState where
  orders : List RepairOrderRow
  assignments : List RepairAssignmentRow
  staff : List StaffRow
  users : List UserRow
  repair_logs : List RepairLogRow
  materials : List MaterialRow
  audit_log : List AuditLogEntry
  next_id : Int
deriving DecidableEq, Repr

/-- Option rational to stored column value. -/
def optNum : Option ℚ → Val
  | some q => Val.num q
  | none => Val.null

/-- Option string to stored column value. -/
def optStr : Option String → Val
  | some s => Val.str s
  | none => Val.null

/-- `_object_to_dict` on a freshly created assignment
(`RepairAssignmentService.create_repair_assignment`): `vars()` lists the
constructor keywords first and `assignment_id`, assigned afterwards from
`LAST_INSERT_ID()`, last. -/
def assignmentObjCreated (a : RepairAssignmentRow) : Obj :=
  [("order_id", Val.num (a.order_id : ℚ)),
   ("staff_id", Val.num (a.staff_id : ℚ)),
   ("status", Val.str a.status),
   ("time_worked", optNum a.time_worked),
   ("assignment_id", Val.num (a.assignment_id : ℚ))]

/-- The dict built from a raw `repair_assignment` row in
`update_repair_assignment_time` and `delete_repair_assignment`
(`assignment_id` first, following the explicit dict literal). -/
def assignmentObjRaw (a : RepairAssignmentRow) : Obj :=
  [("assignment_id", Val.num (a.assignment_id : ℚ)),
   ("order_id", Val.num (a.order_id : ℚ)),
   ("staff_id", Val.num (a.staff_id : ℚ)),
   ("status", Val.str a.status),
   ("time_worked", optNum a.time_worked)]

/-- `_object_to_dict` on a `RepairOrder` built by
`get_repair_order_by_id` (constructor keyword order). -/
def orderObj (o : RepairOrderRow) : Obj :=
  [("order_id", Val.num (o.order_id : ℚ)),
   ("vehicle_id", Val.num (o.vehicle_id : ℚ)),
   ("customer_id", Val.num (o.customer_id : ℚ)),
   ("request_id", Val.num (o.request_id : ℚ)),
   ("required_staff_type", optStr o.required_staff_type),
   ("status", optStr (o.status.map RepairStatus.value)),
   ("order_time", optStr o.order_time),
   ("finish_time", optStr o.finish_time),
   ("remarks", optStr o.remarks)]

/-! ## Repair order and assignment services -/

/-- `RepairOrderService.get_repair_order_by_id`. -/
def get_repair_order_by_id (s : EngineState) (order_id : Int) :
    Option RepairOrderRow :=
  s.orders.find? (fun o => o.order_id == order_id)

/-- `RepairOrderService.update_repair_order_status`: read the order,
snapshot it, write the new status, log one UPDATE audit event with full
old and new snapshots; `None` when the order is absent. -/
def update_repair_order_status (s : EngineState) (order_id : Int)
    (status : RepairStatus) : Option RepairOrderRow × EngineState :=
  match get_repair_order_by_id s order_id with
  | none => (none, s)
  | some o =>
    let o2 := { o with status := some status }
    (some o2,
      { s with
        orders := s.orders.map
          (fun r => if r.order_id == order_id then { r with status := some status } else r),
        audit_log := log_audit_event s.audit_log "repair_order" order_id
          OperationType.UPDATE (some (orderObj o)) (some (orderObj o2)) })

/-- The Python falsiness coercions applied when a `repair_assignment` row
is turned into an object (`status if status else "pending"`,
`time_worked if time_worked else None`). -/
def coerceAssignment (a : RepairAssignmentRow) : RepairAssignmentRow :=
  { a with
    status := if a.status == "" then "pending" else a.status,
    time_worked :=
      match a.time_worked with
      | some t => if t == 0 then none else some t
      | none => none }

/-- `RepairAssignmentService.get_repair_assignment_by_id`. -/
def get_repair_assignment_by_id (s : EngineState) (assignment_id : Int) :
    Option RepairAssignmentRow :=
  (s.assignments.find? (fun a => a.assignment_id == assignment_id)).map
    coerceAssignment

/-- `RepairAssignmentService.get_assignments_by_order_id`. -/
def get_assignments_by_order_id (s : EngineState) (order_id : Int) :
    List RepairAssignmentRow :=
  (s.assignments.filter (fun a => a.order_id == order_id)).map
    coerceAssignment

/-- `RepairAssignmentService.get_eligible_staff`: staff rows whose
`jobtype` matches, minus the excluded staff id when given. -/
def get_eligible_staff (s : EngineState) (required_staff_type : String)
    (exclude_staff_id : Option Int) : List StaffRow :=
  s.staff.filter (fun st =>
    st.jobtype == required_staff_type &&
    (match exclude_staff_id with
     | some e => !(st.staff_id == e)
     | none => true))

/-- `RepairAssignmentService.create_repair_assignment`: insert the row,
read back `LAST_INSERT_ID()`, log one INSERT audit event whose `new_data`
is the full object snapshot. -/
def create_repair_assignment (s : EngineState) (order_id staff_id : Int)
    (status : String) (time_worked : Option ℚ) :
    RepairAssignmentRow × EngineState :=
  let a : RepairAssignmentRow :=
    { assignment_id := s.next_id, order_id := order_id, staff_id := staff_id,
      status := status, time_worked := time_worked }
  (a,
    { s with
      assignments := s.assignments ++ [a],
      next_id := s.next_id + 1,
      audit_log := log_audit_event s.audit_log "repair_assignment"
        a.assignment_id OperationType.INSERT none
        (some (assignmentObjCreated a)) })

/-- `RepairAssignmentService.update_assignment_status`: validate that the
assignment exists, belongs to the staff member, and is still pending, and
that the new status is `accepted` or `rejected`; then write the status and
log one UPDATE audit event whose snapshots cover only the status field. -/
def update_assignment_status (s : EngineState) (assignment_id staff_id : Int)
    (new_status : String) : Option RepairAssignmentRow × EngineState :=
  match get_repair_assignment_by_id s assignment_id with
  | none => (none, s)
  | some a =>
    if !(a.staff_id == staff_id) then (none, s)
    else if !(a.status == "pending") then (none, s)
    else if !(new_status == "accepted" || new_status == "rejected") then (none, s)
    else
      (some { a with status := new_status },
        { s with
          assignments := s.assignments.map
            (fun r => if r.assignment_id == assignment_id then { r with status := new_status } else r),
          audit_log := log_audit_event s.audit_log "repair_assignment"
            assignment_id OperationType.UPDATE
            (some [("status", Val.str "pending")])
            (some [("status", Val.str new_status)]) })

/-- `RepairAssignmentService.update_repair_assignment_time`: read the raw
row, write `time_worked`, log one UPDATE audit event with full raw
snapshots. -/
def update_repair_assignment_time (s : EngineState) (assignment_id : Int)
    (time_worked : ℚ) : Option RepairAssignmentRow × EngineState :=
  match s.assignments.find? (fun a => a.assignment_id == assignment_id) with
  | none => (none, s)
  | some oldRow =>
    let updated := { oldRow with time_worked := some time_worked }
    (some updated,
      { s with
        assignments := s.assignments.map
          (fun r => if r.assignment_id == assignment_id then { r with time_worked := some time_worked } else r),
        audit_log := log_audit_event s.audit_log "repair_assignment"
          assignment_id OperationType.UPDATE
          (some (assignmentObjRaw oldRow))
          (some (assignmentObjRaw updated)) })

/-- `RepairAssignmentService.delete_repair_assignment`: read the raw row,
delete it, log one DELETE audit event whose `old_data` is the full raw
snapshot. -/
def delete_repair_assignment (s : EngineState) (assignment_id : Int) :
    Bool × EngineState :=
  match s.assignments.find? (fun a => a.assignment_id == assignment_id) with
  | none => (false, s)
  | some oldRow =>
    (true,
      { s with
        assignments := s.assignments.filter
          (fun r => !(r.assignment_id == assignment_id)),
        audit_log := log_audit_event s.audit_log "repair_assignment"
          assignment_id OperationType.DELETE
          (some (assignmentObjRaw oldRow)) none })

/-- `RepairOrderService.create_repair_order`: insert the row, read back
the generated id, log one INSERT audit event with the full object
snapshot. -/
def create_repair_order (s : EngineState)
    (vehicle_id customer_id request_id : Int)
    (required_staff_type : String) (status : RepairStatus)
    (remarks : Option String) : RepairOrderRow × EngineState :=
  let o : RepairOrderRow :=
    { order_id := s.next_id, vehicle_id := vehicle_id,
      customer_id := customer_id, request_id := request_id,
      required_staff_type := some required_staff_type,
      status := some status, order_time := none, finish_time := none,
      remarks := remarks }
  (o,
    { s with
      orders := s.orders ++ [o],
      next_id := s.next_id + 1,
      audit_log := log_audit_event s.audit_log "repair_order" o.order_id
        OperationType.INSERT none (some (orderObj o)) })

/-! ## The assignment engine (`app/core/repair_order.py`) -/

/-- The distinct `ValueError` / `RuntimeError` cases raised by
`assign_order`. -/
inductive AssignError where
  | orderNotFound
  | staffTypeUnset
  | noEligibleStaff
  | invalidStaffData
deriving DecidableEq, Repr

/-- Whether `assign_order` raises this case as a `ValueError` (caught by
the reject branch of `accept_order`) rather than a `RuntimeError`. -/
def AssignError.isValueError : AssignError → Bool
  | AssignError.orderNotFound => true
  | AssignError.staffTypeUnset => true
  | AssignError.noEligibleStaff => true
  | AssignError.invalidStaffData => false

/-- `assign_order` (`app/core/repair_order.py`): load the order, collect
the eligible staff for its required type minus the excluded id, pick one
— `random.choice` modelled by index `k` — and create a `pending`
assignment.  `if not staff_id` reproduces the Python truthiness test on
the selected staff id. -/
def assign_order (s : EngineState) (order_id : Int)
    (exclude_staff_id : Option Int) (k : Nat) :
    Except AssignError RepairAssignmentRow × EngineState :=
  match get_repair_order_by_id s order_id with
  | none => (Except.error AssignError.orderNotFound, s)
  | some o =>
    match o.required_staff_type with
    | none => (Except.error AssignError.staffTypeUnset, s)
    | some required_staff_type =>
      match get_eligible_staff s required_staff_type exclude_staff_id with
      | [] => (Except.error AssignError.noEligibleStaff, s)
      | e0 :: rest =>
        let selected := (e0 :: rest).getD (k % (e0 :: rest).length) e0
        if selected.staff_id == 0 then
          (Except.error AssignError.invalidStaffData, s)
        else
          let (a, s1) := create_repair_assignment s order_id
            selected.staff_id "pending" none
          (Except.ok a, s1)

/-- The distinct failure cases of `accept_order`. -/
inductive RespondError where
  | assignmentNotFound
  | notOwnedByStaff
  | notPending
  | updateFailed
  | orderUpdateFailed
  | reassignFailed (e : AssignError)
  | assignInternal (e : AssignError)
deriving DecidableEq, Repr

/-- `accept_order` (`app/core/repair_order.py`): validate the assignment,
write `accepted` or `rejected`; on accept move the order to
`IN_PROGRESS`, on reject call `assign_order` again excluding the
rejecting staff member.  A `ValueError` from the reassignment is wrapped
(`reassignFailed`), a `RuntimeError` propagates (`assignInternal`); in
both cases the rejection has already been written, so the error carries
the mutated state. -/
def accept_order (s : EngineState) (assignment_id staff_id : Int)
    (accept : Bool) (k : Nat) :
    Except RespondError RepairAssignmentRow × EngineState :=
  match get_repair_assignment_by_id s assignment_id with
  | none => (Except.error RespondError.assignmentNotFound, s)
  | some a =>
    if !(a.staff_id == staff_id) then
      (Except.error RespondError.notOwnedByStaff, s)
    else if !(a.status == "pending") then
      (Except.error RespondError.notPending, s)
    else
      match update_assignment_status s assignment_id staff_id
          (if accept then "accepted" else "rejected") with
      | (none, s1) => (Except.error RespondError.updateFailed, s1)
      | (some upd, s1) =>
        if accept then
          match update_repair_order_status s1 a.order_id
              RepairStatus.IN_PROGRESS with
          | (none, s2) => (Except.error RespondError.orderUpdateFailed, s2)
          | (some _, s2) => (Except.ok upd, s2)
        else
          match assign_order s1 a.order_id (some staff_id) k with
          | (Except.ok _, s2) => (Except.ok upd, s2)
          | (Except.error e, s2) =>
            if e.isValueError then
              (Except.error (RespondError.reassignFailed e), s2)
            else
              (Except.error (RespondError.assignInternal e), s2)

/-! ## Fee calculation (`app/core/repair_order.py`) -/

/-- `RepairLogService.get_repair_logs_by_order_id`. -/
def get_repair_logs_by_order_id (s : EngineState) (order_id : Int) :
    List RepairLogRow :=
  s.repair_logs.filter (fun l => l.order_id == order_id)

/-- `MaterialService.get_materials_by_log_id` (the `material_id ASC`
ordering is irrelevant to the fee sum). -/
def get_materials_by_log_id (s : EngineState) (log_id : Int) :
    List MaterialRow :=
  s.materials.filter (fun m => m.log_id == log_id)

/-- One iteration of the outer loop of `calculate_material_fee`: add the
`total_price` of every material of one repair log to the running total. -/
def materialFeeLogStep (s : EngineState) (total : ℚ) (log : RepairLogRow) : ℚ :=
  (get_materials_by_log_id s log.log_id).foldl
    (fun t m => t + m.total_price) total

/-- `calculate_material_fee`: accumulate `total_price` over the materials
of every repair log of the order; `0.0` when the order has no logs.  A
pure read: it takes the state and returns only the fee. -/
def calculate_material_fee (s : EngineState) (repair_order_id : Int) : ℚ :=
  let repair_logs := get_repair_logs_by_order_id s repair_order_id
  if repair_logs.isEmpty then 0
  else repair_logs.foldl (materialFeeLogStep s) 0

/-- The view of a user returned by `UserService.get_user_by_id`: for a
`staff` discriminator the staff row is joined in and a NULL or zero
`hourly_rate` becomes `0`; a staff user without a staff row has no
`hourly_rate` attribute, modelled as `none`; non-staff users never expose
one. -/
structure UserView where
  user_id : Int
  discriminator : String
  hourly_rate : Option ℚ
deriving DecidableEq, Repr

/-- `UserService.get_user_by_id` combined with
`_map_user_row_to_object`. -/
def get_user_by_id (s : EngineState) (user_id : Int) : Option UserView :=
  (s.users.find? (fun u => u.user_id == user_id)).map (fun u =>
    { user_id := u.user_id,
      discriminator := u.discriminator,
      hourly_rate :=
        if u.discriminator == "staff" then
          match s.staff.find? (fun st => st.staff_id == user_id) with
          | some st => some st.hourly_rate
          | none => none
        else none })

/-- One iteration of the loop of `calculate_labor_fee`: when
`time_worked` is present and positive and the staff user exists with
discriminator `staff` and an hourly rate, add
`time_worked * hourly_rate` to the running total. -/
def laborFeeStep (s : EngineState) (total : ℚ) (a : RepairAssignmentRow) : ℚ :=
  match a.time_worked with
  | some t =>
    if 0 < t then
      match get_user_by_id s a.staff_id with
      | some u =>
        if u.discriminator == "staff" then
          match u.hourly_rate with
          | some r => total + t * r
          | none => total
        else total
      | none => total
    else total
  | none => total

/-- `calculate_labor_fee`: accumulate `laborFeeStep` over the assignments
of the order; `0.0` when the order has no assignments. -/
def calculate_labor_fee (s : EngineState) (repair_order_id : Int) : ℚ :=
  let assignments := get_assignments_by_order_id s repair_order_id
  if assignments.isEmpty then 0
  else assignments.foldl (laborFeeStep s) 0

/-! ## Order completion (`finish_repair_order`, `app/api/staff.py`) -/

/-- The failure cases of the `finish_repair_order` handler (HTTP status
codes mapped to named cases). -/
inductive FinishError where
  | orderNotFound
  | alreadyCompleted
  | assignmentNotFound (assignment_id : Int)
  | statusUpdateFailed
deriving DecidableEq, Repr

/-- The time-update loop of `finish_repair_order`: updates are applied one
at a time; a missing assignment aborts the loop, leaving the updates
already applied in place. -/
def applyTimeUpdates (s : EngineState) (time_list : List (Int × ℚ)) :
    Except FinishError Unit × EngineState :=
  match time_list with
  | [] => (Except.ok (), s)
  | (assignment_id, time_worked) :: rest =>
    match update_repair_assignment_time s assignment_id time_worked with
    | (none, s1) => (Except.error (FinishError.assignmentNotFound assignment_id), s1)
    | (some _, s1) => applyTimeUpdates s1 rest

/-- `finish_repair_order` (`app/api/staff.py`): reject an absent or
already completed order, update `time_worked` for every listed
assignment, then move the order to `COMPLETED`. -/
def finish_repair_order (s : EngineState) (order_id : Int)
    (time_list : List (Int × ℚ)) : Except FinishError Unit × EngineState :=
  match get_repair_order_by_id s order_id with
  | none => (Except.error FinishError.orderNotFound, s)
  | some o =>
    if o.status == some RepairStatus.COMPLETED then
      (Except.error FinishError.alreadyCompleted, s)
    else
      match applyTimeUpdates s time_list with
      | (Except.error e, s1) => (Except.error e, s1)
      | (Except.ok _, s1) =>
        match update_repair_order_status s1 order_id RepairStatus.COMPLETED with
        | (none, s2) => (Except.error FinishError.statusUpdateFailed, s2)
        | (some _, s2) => (Except.ok (), s2)

/-! ## Spec-side formulations used to state refinement theorems -/

/-- The material fee as the spec words it: the sum of
`quantity * unit_price` over every material attached to any repair log of
the order. -/
def specMaterialFee (s : EngineState) (order_id : Int) : ℚ :=
  ((s.materials.filter (fun m =>
      (s.repair_logs.filter (fun l => l.order_id == order_id)).any
        (fun l => l.log_id == m.log_id))).map
    MaterialRow.total_price).sum

/-- The hourly rate the labor-fee spec attributes to a staff id: present
exactly when the user exists, is staff, and exposes a rate. -/
def specStaffRate (s : EngineState) (staff_id : Int) : Option ℚ :=
  (get_user_by_id s staff_id).bind (fun u =>
    if u.discriminator == "staff" then u.hourly_rate else none)

/-- The labor-fee contribution of one assignment as the spec words it:
`time_worked * hourly_rate` when `time_worked` is positive and the staff
member has a rate, and `0` otherwise. -/
def specLaborContribution (s : EngineState) (a : RepairAssignmentRow) : ℚ :=
  match a.time_worked with
  | some t =>
    if 0 < t then
      match specStaffRate s a.staff_id with
      | some r => t * r
      | none => 0
    else 0
  | none => 0

/-! ## The lifecycle invariant -/

/-- An assignment is live when it is `pending` or `accepted`. -/
def isLive (a : RepairAssignmentRow) : Bool :=
  a.status == "pending" || a.status == "accepted"

/-- Number of live assignments of one order. -/
def liveCount (s : EngineState) (order_id : Int) : Nat :=
  s.assignments.countP (fun a => a.order_id == order_id && isLive a)

/-- The spec invariant: every order has at most one live assignment. -/
def OrderAssignmentInv (s : EngineState) : Prop :=
  ∀ order_id : Int, liveCount s order_id ≤ 1

/-- Structural well-formedness guaranteed by the relational store:
AUTO_INCREMENT ids stay below the counter and are unique, foreign keys
resolve, staff ids are the positive `user.user_id` values, and the status
column only ever holds the three values the code writes. -/
structure EngineWF (s : EngineState) : Prop where
  assignment_id_lt : ∀ a ∈ s.assignments, a.assignment_id < s.next_id
  assignment_ids_nodup : (s.assignments.map RepairAssignmentRow.assignment_id).Nodup
  order_id_lt : ∀ o ∈ s.orders, o.order_id < s.next_id
  assignment_order_lt : ∀ a ∈ s.assignments, a.order_id < s.next_id
  staff_id_pos : ∀ st ∈ s.staff, 0 < st.staff_id
  status_wf : ∀ a ∈ s.assignments,
    a.status = "pending" ∨ a.status = "accepted" ∨ a.status = "rejected"

/-- The operations the system performs on orders and assignments: the
order-generation endpoint (`generate_repair_order`: create the order,
then assign it), the accept/reject endpoint, and the completion
endpoint.  `assign_order` is reached only on a freshly created order or
from inside the reject branch, matching its call sites under
`app/api/staff.py`. -/
inductive EngineStep : EngineState → EngineState → Prop where
  | generate (s : EngineState) (vehicle_id customer_id request_id : Int)
      (required_staff_type : String) (status : RepairStatus)
      (remarks : Option String) (k : Nat) :
      EngineStep s
        (assign_order
          (create_repair_order s vehicle_id customer_id request_id
            required_staff_type status remarks).2
          (create_repair_order s vehicle_id customer_id request_id
            required_staff_type status remarks).1.order_id
          none k).2
  | respond (s : EngineState) (assignment_id staff_id : Int) (accept : Bool)
      (k : Nat) :
      EngineStep s (accept_order s assignment_id staff_id accept k).2
  | finish (s : EngineState) (order_id : Int) (time_list : List (Int × ℚ)) :
      EngineStep s (finish_repair_order s order_id time_list).2

/-- The empty store, used to build concrete example states. -/
def emptyEngine : EngineState :=
  { orders := [], assignments := [], staff := [], users := [],
    repair_logs := [], materials := [], audit_log := [], next_id := 1 }

/-! ## Helper lemmas on folds and filters -/

lemma foldl_add_eq_sum {α : Type} (w : α → ℚ) :
    ∀ (L : List α) (c : ℚ), L.foldl (fun t m => t + w m) c = c + (L.map w).sum := by
  intro L
  induction L with
  | nil => intro c; simp
  | cons x xs ih => intro c; simp [List.foldl_cons, ih, add_assoc]

lemma foldl_eq_sum_of_step {α : Type} (f : ℚ → α → ℚ) (w : α → ℚ)
    (hstep : ∀ t a, f t a = t + w a) :
    ∀ (L : List α) (c : ℚ), L.foldl f c = c + (L.map w).sum := by
  intro L
  induction L with
  | nil => intro c; simp
  | cons x xs ih =>
    intro c
    rw [List.foldl_cons, hstep, ih]
    simp [add_assoc]

lemma sum_filter_or {α : Type} (p q : α → Bool) (w : α → ℚ) :
    ∀ L : List α, (∀ x ∈ L, ¬(p x = true ∧ q x = true)) →
      ((L.filter (fun x => p x || q x)).map w).sum =
        ((L.filter p).map w).sum + ((L.filter q).map w).sum := by
  intro L
  induction L with
  | nil => intro _; simp
  | cons x xs ih =>
    intro h
    have hx := h x (by simp)
    have hxs : ∀ y ∈ xs, ¬(p y = true ∧ q y = true) :=
      fun y hy => h y (by simp [hy])
    by_cases hp : p x = true
    · have hq : q x = false := by
        cases hq : q x with
        | false => rfl
        | true => exact absurd ⟨hp, hq⟩ hx
      simp [List.filter_cons, hp, hq, ih hxs, add_assoc]
    · have hp' : p x = false := by simpa using hp
      by_cases hq : q x = true
      · simp only [List.filter_cons, hp', hq, Bool.false_or, ite_true,
          Bool.false_eq_true, ite_false]
        simp [List.map_cons, List.sum_cons, ih hxs]
        ring
      · have hq' : q x = false := by simpa using hq
        simp [List.filter_cons, hp', hq', ih hxs]

lemma grouped_sum_eq_flat_sum (mats : List MaterialRow) :
    ∀ logs : List RepairLogRow, (logs.map RepairLogRow.log_id).Nodup →
      (logs.map (fun l =>
          ((mats.filter (fun m => m.log_id == l.log_id)).map
            MaterialRow.total_price).sum)).sum =
        ((mats.filter (fun m =>
            logs.any (fun l => l.log_id == m.log_id))).map
          MaterialRow.total_price).sum := by
  intro logs
  induction logs with
  | nil => intro _; simp
  | cons l ls ih =>
    intro hnd
    have hhead : l.log_id ∉ ls.map RepairLogRow.log_id := by
      have := hnd
      simp only [List.map_cons, List.nodup_cons] at this
      exact this.1
    have htail : (ls.map RepairLogRow.log_id).Nodup := by
      have := hnd
      simp only [List.map_cons, List.nodup_cons] at this
      exact this.2
    have hdisj : ∀ m ∈ mats,
        ¬((m.log_id == l.log_id) = true ∧
          (ls.any (fun l2 => l2.log_id == m.log_id)) = true) := by
      intro m _ ⟨h1, h2⟩
      have he : m.log_id = l.log_id := by simpa using h1
      rcases List.any_eq_true.mp h2 with ⟨l2, hl2, hl2e⟩
      have he2 : l2.log_id = m.log_id := by simpa using hl2e
      exact hhead (by
        rw [← he, ← he2]
        exact List.mem_map_of_mem RepairLogRow.log_id hl2)
    have hor := sum_filter_or (fun m => m.log_id == l.log_id)
      (fun m => ls.any (fun l2 => l2.log_id == m.log_id))
      MaterialRow.total_price mats hdisj
    calc (((l :: ls)).map (fun l2 =>
          ((mats.filter (fun m => m.log_id == l2.log_id)).map
            MaterialRow.total_price).sum)).sum
        = ((mats.filter (fun m => m.log_id == l.log_id)).map
            MaterialRow.total_price).sum +
          ((mats.filter (fun m =>
              ls.any (fun l2 => l2.log_id == m.log_id))).map
            MaterialRow.total_price).sum := by
          simp [List.map_cons, List.sum_cons, ih htail]
      _ = ((mats.filter (fun m =>
            (m.log_id == l.log_id) ||
              ls.any (fun l2 => l2.log_id == m.log_id))).map
          MaterialRow.total_price).sum := (hor).symm
      _ = ((mats.filter (fun m =>
            (l :: ls).any (fun l2 => l2.log_id == m.log_id))).map
          MaterialRow.total_price).sum := by
          apply congrArg
          apply congrArg
          apply List.filter_congr
          intro m _
          simp only [List.any_cons]
          have : (l.log_id == m.log_id) = (m.log_id == l.log_id) := by
            cases h1 : l.log_id == m.log_id with
            | true => rw [eq_of_beq h1]; simp
            | false =>
              cases h2 : m.log_id == l.log_id with
              | true =>
                rw [eq_of_beq h2] at h1
                simp at h1
              | false => rfl
          rw [this]

lemma materialFeeLogStep_eq (s : EngineState) (t : ℚ) (l : RepairLogRow) :
    materialFeeLogStep s t l =
      t + ((get_materials_by_log_id s l.log_id).map
        MaterialRow.total_price).sum := by
  unfold materialFeeLogStep
  exact foldl_add_eq_sum MaterialRow.total_price _ t

lemma calculate_material_fee_eq_grouped (s : EngineState) (order_id : Int) :
    calculate_material_fee s order_id =
      ((get_repair_logs_by_order_id s order_id).map (fun l =>
        ((get_materials_by_log_id s l.log_id).map
          MaterialRow.total_price).sum)).sum := by
  unfold calculate_material_fee
  cases h : (get_repair_logs_by_order_id s order_id).isEmpty with
  | true =>
    rw [List.isEmpty_iff] at h
    simp [h]
  | false =>
    simp only [h, Bool.false_eq_true, if_false]
    rw [foldl_eq_sum_of_step (materialFeeLogStep s)
      (fun l => ((get_materials_by_log_id s l.log_id).map
        MaterialRow.total_price).sum)
      (materialFeeLogStep_eq s)]
    simp

/-- Claim C8: `MaterialFee(orderID)` is the sum of
`quantity * unit_price` over every material attached to any repair log of
the order, and `0.0` when the order has no repair logs; it reads the
state and returns only a number, so it has no side effects.  The first
part assumes the repair logs of the order have pairwise distinct
`log_id`s, which the primary key guarantees. -/
theorem material_fee_matches_spec :
    (∀ (s : EngineState) (order_id : Int),
      ((s.repair_logs.filter (fun l => l.order_id == order_id)).map
        RepairLogRow.log_id).Nodup →
      calculate_material_fee s order_id = specMaterialFee s order_id) ∧
    (∀ (s : EngineState) (order_id : Int),
      s.repair_logs.filter (fun l => l.order_id == order_id) = [] →
      calculate_material_fee s order_id = 0) := by
  constructor
  · intro s order_id hnd
    rw [calculate_material_fee_eq_grouped]
    unfold get_repair_logs_by_order_id get_materials_by_log_id specMaterialFee
    exact grouped_sum_eq_flat_sum s.materials
      (s.repair_logs.filter (fun l => l.order_id == order_id)) hnd
  · intro s order_id h
    unfold calculate_material_fee get_repair_logs_by_order_id
    rw [h]
    simp

/-- A completed example order with id 1. -/
def exampleOrder : RepairOrderRow :=
  { order_id := 1, vehicle_id := 1, customer_id := 1, request_id := 1,
    required_staff_type := some "Welder",
    status := some RepairStatus.COMPLETED, order_time := none,
    finish_time := none, remarks := none }

/-- Scenario D state: one order with one log and materials
`(qty 2, price 10)` and `(qty 1, price 5)`. -/
def scenarioDState : EngineState :=
  { emptyEngine with
    orders := [exampleOrder],
    repair_logs := [{ log_id := 10, order_id := 1 }],
    materials := [
      { material_id := 1, log_id := 10, quantity := 2, unit_price := 10 },
      { material_id := 2, log_id := 10, quantity := 1, unit_price := 5 }] }

theorem material_fee_matches_spec_witness :
    ((scenarioDState.repair_logs.filter (fun l => l.order_id == 1)).map
      RepairLogRow.log_id).Nodup ∧
    calculate_material_fee scenarioDState 1 = specMaterialFee scenarioDState 1 ∧
    calculate_material_fee scenarioDState 1 = 25 :=
  ⟨by decide, material_fee_matches_spec.1 scenarioDState 1 (by decide),
   by norm_num [calculate_material_fee, materialFeeLogStep,
     get_repair_logs_by_order_id, get_materials_by_log_id,
     MaterialRow.total_price, scenarioDState, emptyEngine]⟩

lemma laborFeeStep_eq (s : EngineState) (t : ℚ) (a : RepairAssignmentRow) :
    laborFeeStep s t a = t + specLaborContribution s a := by
  unfold laborFeeStep specLaborContribution specStaffRate
  cases htw : a.time_worked with
  | none => simp
  | some tw =>
    by_cases hpos : 0 < tw
    · cases hu : get_user_by_id s a.staff_id with
      | none => simp [hpos, hu]
      | some u =>
        by_cases hd : u.discriminator = "staff"
        · cases hr : u.hourly_rate with
          | none => simp [hpos, hu, hd, hr]
          | some r => simp [hpos, hu, hd, hr]
        · simp [hpos, hu, hd]
    · simp [hpos]

/-- Claim C9: `LaborFee(orderID)` is the sum over the assignments of the
order of the contribution `time_worked * hourly_rate` when `time_worked`
is positive and the staff member resolves to a staff user with an hourly
rate, and `0` otherwise; `0.0` when the order has no assignments. -/
theorem labor_fee_matches_spec :
    (∀ (s : EngineState) (order_id : Int),
      calculate_labor_fee s order_id =
        ((get_assignments_by_order_id s order_id).map
          (specLaborContribution s)).sum) ∧
    (∀ (s : EngineState) (order_id : Int),
      s.assignments.filter (fun a => a.order_id == order_id) = [] →
      calculate_labor_fee s order_id = 0) := by
  constructor
  · intro s order_id
    unfold calculate_labor_fee
    cases h : (get_assignments_by_order_id s order_id).isEmpty with
    | true =>
      rw [List.isEmpty_iff] at h
      simp [h]
    | false =>
      simp only [h, Bool.false_eq_true, if_false]
      rw [foldl_eq_sum_of_step (laborFeeStep s) (specLaborContribution s)
        (laborFeeStep_eq s)]
      simp
  · intro s order_id h
    unfold calculate_labor_fee get_assignments_by_order_id
    rw [h]
    simp

/-- A store with one staff member (rate 50) who worked 2 hours on order
1. -/
def laborExampleState : EngineState :=
  { emptyEngine with
    staff := [{ staff_id := 7, jobtype := "Welder", hourly_rate := 50 }],
    users := [{ user_id := 7, discriminator := "staff" }],
    assignments := [⟨1, 1, 7, "accepted", some 2⟩] }

theorem labor_fee_matches_spec_witness :
    calculate_labor_fee laborExampleState 1 =
      ((get_assignments_by_order_id laborExampleState 1).map
        (specLaborContribution laborExampleState)).sum ∧
    calculate_labor_fee laborExampleState 99 = 0 ∧
    calculate_labor_fee laborExampleState 1 = 100 :=
  ⟨labor_fee_matches_spec.1 laborExampleState 1,
   labor_fee_matches_spec.2 laborExampleState 99 (by decide),
   by norm_num [calculate_labor_fee, laborFeeStep,
     get_assignments_by_order_id, coerceAssignment, get_user_by_id,
     laborExampleState, emptyEngine]⟩

/-- Claim C10: for an order id absent from the store (with foreign keys
resolving, so nothing references the absent id), the order lookup returns
nothing and both fee calculations return `0.0` without error. -/
theorem unknown_order_fees_are_zero :
    ∀ (s : EngineState) (order_id : Int),
      (∀ o ∈ s.orders, o.order_id ≠ order_id) →
      (∀ l ∈ s.repair_logs, ∃ o ∈ s.orders, o.order_id = l.order_id) →
      (∀ a ∈ s.assignments, ∃ o ∈ s.orders, o.order_id = a.order_id) →
      get_repair_order_by_id s order_id = none ∧
      calculate_material_fee s order_id = 0 ∧
      calculate_labor_fee s order_id = 0 := by
  intro s order_id horders hlogs hassign
  have hlf : s.repair_logs.filter (fun l => l.order_id == order_id) = [] := by
    rw [List.filter_eq_nil_iff]
    intro l hl
    rcases hlogs l hl with ⟨o, ho, hoe⟩
    have : l.order_id ≠ order_id := by
      rw [← hoe]
      exact horders o ho
    simpa using this
  have haf : s.assignments.filter (fun a => a.order_id == order_id) = [] := by
    rw [List.filter_eq_nil_iff]
    intro a ha
    rcases hassign a ha with ⟨o, ho, hoe⟩
    have : a.order_id ≠ order_id := by
      rw [← hoe]
      exact horders o ho
    simpa using this
  refine ⟨?_, ?_, ?_⟩
  · unfold get_repair_order_by_id
    rw [List.find?_eq_none]
    intro o ho
    simpa using horders o ho
  · unfold calculate_material_fee get_repair_logs_by_order_id
    rw [hlf]
    simp
  · unfold calculate_labor_fee get_assignments_by_order_id
    rw [haf]
    simp

theorem unknown_order_fees_are_zero_witness :
    get_repair_order_by_id scenarioDState 2 = none ∧
    calculate_material_fee scenarioDState 2 = 0 ∧
    calculate_labor_fee scenarioDState 2 = 0 :=
  unknown_order_fees_are_zero scenarioDState 2 (by decide) (by decide) (by decide)

/-! ## Claim C5: `AssignOrder` -/

lemma getD_mem_of_mem {α : Type} {d : α} (l : List α) (hd : d ∈ l)
    (n : Nat) : l.getD n d ∈ l := by
  rw [List.getD_eq_getElem?_getD]
  cases hg : l[n]? with
  | none => simpa [hg] using hd
  | some x =>
    have hx : x ∈ l := by
      rcases List.getElem?_eq_some_iff.mp hg with ⟨h, he⟩
      exact he ▸ List.getElem_mem h
    simpa [hg] using hx

/-- The selected staff member of a successful `assign_order` run, for an
eligible list `e0 :: rest` and random index `k`. -/
def chosenStaff (e0 : StaffRow) (rest : List StaffRow) (k : Nat) : StaffRow :=
  (e0 :: rest).getD (k % (e0 :: rest).length) e0

/-- The assignment row `assign_order` creates on success. -/
def mkPendingAssignment (s : EngineState) (order_id staff_id : Int) :
    RepairAssignmentRow :=
  { assignment_id := s.next_id, order_id := order_id, staff_id := staff_id,
    status := "pending", time_worked := none }

lemma assign_order_success_eq (s : EngineState) (order_id : Int)
    (ex : Option Int) (k : Nat) (o : RepairOrderRow) (rst : String)
    (e0 : StaffRow) (rest : List StaffRow)
    (ho : get_repair_order_by_id s order_id = some o)
    (hrst : o.required_staff_type = some rst)
    (hel : get_eligible_staff s rst ex = e0 :: rest)
    (hz : (chosenStaff e0 rest k).staff_id ≠ 0) :
    assign_order s order_id ex k =
      (Except.ok (mkPendingAssignment s order_id (chosenStaff e0 rest k).staff_id),
        { s with
          assignments := s.assignments ++
            [mkPendingAssignment s order_id (chosenStaff e0 rest k).staff_id],
          next_id := s.next_id + 1,
          audit_log :=
            { table_name := "repair_assignment",
              record_id := s.next_id,
              operation := OperationType.INSERT,
              old_data := none,
              new_data := some (assignmentObjCreated
                (mkPendingAssignment s order_id
                  (chosenStaff e0 rest k).staff_id)) } ::
              s.audit_log }) := by
  unfold assign_order
  rw [ho]
  dsimp only
  rw [hrst]
  dsimp only
  rw [hel]
  dsimp only
  rw [if_neg (by simpa [chosenStaff] using hz)]
  simp [create_repair_assignment, log_audit_event, serializeIfNonempty,
    assignmentObjCreated, mkPendingAssignment, chosenStaff]

/-- Claim C5: `AssignOrder(orderID, excludeStaffID?)` fails with
`NotFound` when the order is absent and `InvalidState` when its required
staff type is unset; when the eligible set (matching job type minus the
excluded id) is empty it fails with `NoEligibleStaff` leaving the state
untouched — no assignment row, no audit entry; otherwise (staff ids being
positive, as the store guarantees) it creates exactly one `pending`
assignment for a member of the eligible set, never the excluded id, whose
only side effects are the new row and one INSERT audit entry. -/
theorem assign_order_spec :
    (∀ (s : EngineState) (order_id : Int) (ex : Option Int) (k : Nat),
      get_repair_order_by_id s order_id = none →
      assign_order s order_id ex k = (Except.error AssignError.orderNotFound, s)) ∧
    (∀ (s : EngineState) (order_id : Int) (ex : Option Int) (k : Nat)
        (o : RepairOrderRow),
      get_repair_order_by_id s order_id = some o →
      o.required_staff_type = none →
      assign_order s order_id ex k = (Except.error AssignError.staffTypeUnset, s)) ∧
    (∀ (s : EngineState) (order_id : Int) (ex : Option Int) (k : Nat)
        (o : RepairOrderRow) (rst : String),
      get_repair_order_by_id s order_id = some o →
      o.required_staff_type = some rst →
      get_eligible_staff s rst ex = [] →
      assign_order s order_id ex k = (Except.error AssignError.noEligibleStaff, s)) ∧
    (∀ (s : EngineState) (order_id : Int) (ex : Option Int) (k : Nat)
        (o : RepairOrderRow) (rst : String),
      get_repair_order_by_id s order_id = some o →
      o.required_staff_type = some rst →
      get_eligible_staff s rst ex ≠ [] →
      (∀ st ∈ s.staff, 0 < st.staff_id) →
      ∃ sel ∈ get_eligible_staff s rst ex,
        (∀ e : Int, ex = some e → sel.staff_id ≠ e) ∧
        assign_order s order_id ex k =
          (Except.ok (mkPendingAssignment s order_id sel.staff_id),
            { s with
              assignments := s.assignments ++
                [mkPendingAssignment s order_id sel.staff_id],
              next_id := s.next_id + 1,
              audit_log :=
                { table_name := "repair_assignment",
                  record_id := s.next_id,
                  operation := OperationType.INSERT,
                  old_data := none,
                  new_data := some (assignmentObjCreated
                    (mkPendingAssignment s order_id sel.staff_id)) } ::
                  s.audit_log })) := by
  refine ⟨?_, ?_, ?_, ?_⟩
  · intro s order_id ex k h
    simp [assign_order, h]
  · intro s order_id ex k o ho hrst
    simp [assign_order, ho, hrst]
  · intro s order_id ex k o rst ho hrst hel
    simp [assign_order, ho, hrst, hel]
  · intro s order_id ex k o rst ho hrst hne hpos
    rcases hel : get_eligible_staff s rst ex with _ | ⟨e0, rest⟩
    · exact absurd hel hne
    · have hselMem : chosenStaff e0 rest k ∈ e0 :: rest :=
        getD_mem_of_mem (e0 :: rest) (by simp) _
      have hselElig : chosenStaff e0 rest k ∈ get_eligible_staff s rst ex := by
        rw [hel]; exact hselMem
      have hselStaff : chosenStaff e0 rest k ∈ s.staff :=
        (List.mem_filter.mp hselElig).1
      have hst : 0 < (chosenStaff e0 rest k).staff_id := hpos _ hselStaff
      refine ⟨chosenStaff e0 rest k, hselMem, ?_, ?_⟩
      · intro e hex hcontra
        have hp := (List.mem_filter.mp hselElig).2
        rw [hex] at hp
        simp only [Bool.and_eq_true, Bool.not_eq_true'] at hp
        rw [hcontra] at hp
        simp at hp
      · exact assign_order_success_eq s order_id ex k o rst e0 rest
          ho hrst hel (by omega)

/-- A store with an assignable order and two eligible welders. -/
def assignExampleState : EngineState :=
  { emptyEngine with
    orders := [{ exampleOrder with status := some RepairStatus.PENDING }],
    staff := [
      { staff_id := 7, jobtype := "Welder", hourly_rate := 50 },
      { staff_id := 8, jobtype := "Welder", hourly_rate := 60 }],
    next_id := 9 }

theorem assign_order_spec_witness :
    ∃ sel ∈ get_eligible_staff assignExampleState "Welder" (some 7),
      (∀ e : Int, (some 7 : Option Int) = some e → sel.staff_id ≠ e) ∧
      assign_order assignExampleState 1 (some 7) 0 =
        (Except.ok (mkPendingAssignment assignExampleState 1 sel.staff_id),
          { assignExampleState with
            assignments := assignExampleState.assignments ++
              [mkPendingAssignment assignExampleState 1 sel.staff_id],
            next_id := assignExampleState.next_id + 1,
            audit_log :=
              { table_name := "repair_assignment",
                record_id := assignExampleState.next_id,
                operation := OperationType.INSERT,
                old_data := none,
                new_data := some (assignmentObjCreated
                  (mkPendingAssignment assignExampleState 1 sel.staff_id)) } ::
                assignExampleState.audit_log }) :=
  assign_order_spec.2.2.2 assignExampleState 1 (some 7) 0
    { exampleOrder with status := some RepairStatus.PENDING } "Welder"
    (by decide) (by decide) (by decide) (by decide)

/-! ## Claim C7: `FinishOrder` applies time updates non-transactionally -/

/-- The failing state for `FinishOrder`: order 10 is in progress and has
one assignment (id 1); the update list also names the absent assignment
99. -/
def finishFailOrder : RepairOrderRow :=
  { exampleOrder with order_id := 10, status := some RepairStatus.IN_PROGRESS }

def finishFailState : EngineState :=
  { emptyEngine with
    orders := [finishFailOrder],
    assignments := [⟨1, 10, 7, "accepted", none⟩],
    next_id := 11 }

/-- Claim C7 (the code at the failing input): `FinishOrder(10, [(1, 2),
(99, 3)])` aborts with `NotFound` for assignment 99, yet the time update
for assignment 1 has already been written and stays written — the call is
not all-or-nothing, and the order status is left untouched. -/
theorem finish_order_partial_persistence :
    (finish_repair_order finishFailState 10 [(1, 2), (99, 3)]).1 =
      Except.error (FinishError.assignmentNotFound 99) ∧
    ((finish_repair_order finishFailState 10 [(1, 2), (99, 3)]).2.assignments.map
      RepairAssignmentRow.time_worked) = [some 2] ∧
    (finish_repair_order finishFailState 10 [(1, 2), (99, 3)]).2.audit_log.length = 1 ∧
    (get_repair_order_by_id
        (finish_repair_order finishFailState 10 [(1, 2), (99, 3)]).2 10).map
      RepairOrderRow.status = some (some RepairStatus.IN_PROGRESS) :=
  ⟨rfl, rfl, rfl, rfl⟩

/-! ## Claims C6 and C2: rollback -/

lemma applyInverse_ne_noAuditHistory (s : AuditState) (e : AuditLogEntry) :
    applyInverse s e ≠ Except.error RollbackError.noAuditHistory := by
  unfold applyInverse
  cases e.operation with
  | INSERT => intro h; cases h
  | UPDATE =>
    cases e.old_data with
    | none => intro h; cases h
    | some od =>
      by_cases he : od.isEmpty
      · simp only [he, if_true]
        intro h; cases h
      · simp only [he, if_false]
        intro h; cases h
  | DELETE =>
    cases e.old_data with
    | none => intro h; cases h
    | some od =>
      by_cases he : od.isEmpty
      · simp only [he, if_true]
        intro h; cases h
      · simp only [he, if_false]
        intro h; cases h

lemma applyInverse_log_eq (s : AuditState) (e : AuditLogEntry) (m : String)
    (s' : AuditState) (h : applyInverse s e = Except.ok (m, s')) :
    s'.log = s.log := by
  obtain ⟨tn, rid, op, od, nd⟩ := e
  unfold applyInverse at h
  dsimp only at h
  cases op with
  | INSERT =>
    injection h with h
    injection h with _ h
    rw [← h]
  | UPDATE =>
    dsimp only at h
    cases od with
    | none => cases h
    | some od0 =>
      dsimp only at h
      by_cases he : od0.isEmpty = true
      · rw [if_pos he] at h
        cases h
      · rw [if_neg he] at h
        injection h with h
        injection h with _ h
        rw [← h]
  | DELETE =>
    dsimp only at h
    cases od with
    | none => cases h
    | some od0 =>
      dsimp only at h
      by_cases he : od0.isEmpty = true
      · rw [if_pos he] at h
        cases h
      · rw [if_neg he] at h
        injection h with h
        injection h with _ h
        rw [← h]

/-- Claim C6 (amended): `RollbackMostRecent` applies the structural
inversion to the single newest audit entry across all tables, ignoring
record identity, and fails with `NoAuditHistory` exactly when the log is
empty; but the applied inverse is written straight to the store and is
NOT itself audited — a successful call leaves the log unchanged, so a
repeated call examines the very same newest entry again instead of
reversing the preceding mutation. -/
theorem rollback_most_recent_spec :
    (∀ s : AuditState,
      rollback_most_recent s = Except.error RollbackError.noAuditHistory ↔
        s.log = []) ∧
    (∀ (s : AuditState) (e : AuditLogEntry) (rest : List AuditLogEntry),
      s.log = e :: rest → rollback_most_recent s = applyInverse s e) ∧
    (∀ (s : AuditState) (m : String) (s' : AuditState),
      rollback_most_recent s = Except.ok (m, s') → s'.log = s.log) ∧
    (∀ (s : AuditState) (e : AuditLogEntry) (rest : List AuditLogEntry)
        (m : String) (s' : AuditState),
      s.log = e :: rest → rollback_most_recent s = Except.ok (m, s') →
      rollback_most_recent s' = applyInverse s' e) := by
  have hhead : ∀ (s : AuditState) (e : AuditLogEntry)
      (rest : List AuditLogEntry), s.log = e :: rest →
      rollback_most_recent s = applyInverse s e := by
    intro s e rest h
    unfold rollback_most_recent
    rw [h]
    rfl
  refine ⟨?_, hhead, ?_, ?_⟩
  · intro s
    constructor
    · intro h
      cases hl : s.log with
      | nil => rfl
      | cons e rest =>
        rw [hhead s e rest hl] at h
        exact absurd h (applyInverse_ne_noAuditHistory s e)
    · intro h
      unfold rollback_most_recent
      rw [h]
      rfl
  · intro s m s' h
    cases hl : s.log with
    | nil =>
      unfold rollback_most_recent at h
      rw [hl] at h
      cases h
    | cons e rest =>
      rw [hhead s e rest hl] at h
      rw [applyInverse_log_eq s e m s' h]
      exact hl
  · intro s e rest m s' hl h
    have hlog : s'.log = s.log := by
      rw [hhead s e rest hl] at h
      exact applyInverse_log_eq s e m s' h
    have hl' : s'.log = e :: rest := by rw [hlog, hl]
    exact hhead s' e rest hl'

lemma getTable_setTable (db : DB) (t : String) (rows : Table) :
    (db.setTable t rows).getTable t = rows := by
  unfold DB.setTable
  by_cases hsome : (List.find? (fun nt => nt.1 == t) db).isSome = true
  · rw [if_pos hsome]
    unfold DB.getTable
    rw [List.find?_map]
    have hpf : ((fun nt : String × Table => nt.1 == t) ∘
        (fun nt => if nt.1 == t then (nt.1, rows) else nt)) =
        (fun nt : String × Table => nt.1 == t) := by
      funext nt
      by_cases h : nt.1 = t <;> simp [h]
    rw [hpf]
    rcases Option.isSome_iff_exists.mp hsome with ⟨x, hx⟩
    rw [hx]
    have hx1 : x.1 = t := by simpa using List.find?_some hx
    simp [hx1]
  · rw [if_neg hsome]
    unfold DB.getTable
    rw [List.find?_append]
    have hnone : List.find? (fun nt => nt.1 == t) db = none := by
      cases hf : List.find? (fun nt => nt.1 == t) db with
      | none => rfl
      | some x => rw [hf] at hsome; simp at hsome
    rw [hnone]
    simp

lemma update_data_getTable (db : DB) (t : String) (data : Obj)
    (idCol : String) (v : Int) :
    (db.update_data t data idCol v).getTable t =
      (db.getTable t).map
        (fun r => if rowMatches idCol v r then mergeRow r data else r) :=
  getTable_setTable db t _

lemma find?_condMap {α : Type} (p : α → Bool) (g : α → α)
    (hp : ∀ a, p a = true → p (g a) = true) :
    ∀ (l : List α) (r : α), l.find? p = some r →
      (l.map (fun a => if p a then g a else a)).find? p = some (g r) := by
  intro l
  induction l with
  | nil => intro r h; cases h
  | cons x xs ih =>
    intro r h
    cases hx : p x with
    | true =>
      rw [List.find?_cons_of_pos _ hx] at h
      injection h with h
      subst h
      simp only [List.map_cons, hx, if_true]
      exact List.find?_cons_of_pos _ (hp x hx)
    | false =>
      rw [List.find?_cons_of_neg _ (by simp [hx])] at h
      simp only [List.map_cons, hx, Bool.false_eq_true, if_false]
      rw [List.find?_cons_of_neg _ (by simp [hx])]
      exact ih r h

lemma lookupField_def (o : Obj) (key : String) :
    Obj.lookupField o key =
      (o.find? (fun kv => kv.1 == key)).map (fun kv => kv.2) := rfl

lemma lookupField_mergeRow (row data : Obj) (key : String) :
    Obj.lookupField (mergeRow row data) key =
      (row.find? (fun kv => kv.1 == key)).map
        (fun kv => (Obj.lookupField data kv.1).getD kv.2) := by
  rw [lookupField_def]
  unfold mergeRow
  rw [List.find?_map]
  have hpf : ((fun kv : String × Val => kv.1 == key) ∘
      (fun kv : String × Val =>
        (kv.1, (Obj.lookupField data kv.1).getD kv.2))) =
      (fun kv : String × Val => kv.1 == key) := by
    funext kv; rfl
  rw [hpf]
  cases row.find? (fun kv => kv.1 == key) <;> rfl

lemma rowMatches_mergeRow_of_none (row data : Obj) (idCol : String) (v : Int)
    (hd : Obj.lookupField data idCol = none) :
    rowMatches idCol v (mergeRow row data) = rowMatches idCol v row := by
  unfold rowMatches
  rw [lookupField_mergeRow, lookupField_def]
  cases hf : row.find? (fun kv => kv.1 == idCol) with
  | none => rfl
  | some kv =>
    have hk : kv.1 = idCol := by simpa using List.find?_some hf
    dsimp only [Option.map]
    rw [hk, hd]
    rfl

lemma rowMatches_mergeRow_of_some (row data : Obj) (idCol : String) (v : Int)
    (hrow : rowMatches idCol v row = true)
    (hd : Obj.lookupField data idCol = some (Val.num (v : ℚ))) :
    rowMatches idCol v (mergeRow row data) = true := by
  unfold rowMatches at hrow ⊢
  rw [lookupField_mergeRow]
  cases hf : row.find? (fun kv => kv.1 == idCol) with
  | none =>
    rw [lookupField_def, hf] at hrow
    simp at hrow
  | some kv =>
    have hk : kv.1 = idCol := by simpa using List.find?_some hf
    dsimp only [Option.map]
    rw [hk, hd]
    simp

lemma lookupField_eq_of_nodup :
    ∀ (o : Obj), (o.map Prod.fst).Nodup →
      ∀ kv ∈ o, Obj.lookupField o kv.1 = some kv.2 := by
  intro o
  induction o with
  | nil => intro _ kv h; cases h
  | cons x xs ih =>
    intro hnd kv hkv
    simp only [List.map_cons, List.nodup_cons] at hnd
    rcases List.mem_cons.mp hkv with h | h
    · subst h
      unfold Obj.lookupField
      rw [List.find?_cons_of_pos _ (by simp)]
      rfl
    · have hne : x.1 ≠ kv.1 := by
        intro hc
        exact hnd.1 (hc ▸ List.mem_map_of_mem Prod.fst h)
      unfold Obj.lookupField
      rw [List.find?_cons_of_neg _ (by simpa using hne)]
      exact ih hnd.2 kv h

lemma mergeRow_restore (oldRow newData : Obj)
    (hnd : (oldRow.map Prod.fst).Nodup) :
    mergeRow (mergeRow oldRow newData) oldRow = oldRow := by
  unfold mergeRow
  rw [List.map_map]
  have hpt : ∀ kv ∈ oldRow,
      ((fun kv : String × Val =>
          (kv.1, (Obj.lookupField oldRow kv.1).getD kv.2)) ∘
        (fun kv : String × Val =>
          (kv.1, (Obj.lookupField newData kv.1).getD kv.2))) kv = kv := by
    intro kv hkv
    have hl := lookupField_eq_of_nodup oldRow hnd kv hkv
    simp [Function.comp, hl]
  calc oldRow.map _ = oldRow.map id := List.map_congr_left hpt
    _ = oldRow := List.map_id oldRow

lemma find?_take_cons_pos {α : Type} (p : α → Bool) (a : α) (l : List α)
    (n : Nat) (hn : n ≠ 0) (ha : p a = true) :
    ((a :: l).take n).find? p = some a := by
  cases n with
  | zero => exact absurd rfl hn
  | succ m =>
    rw [List.take_succ_cons]
    exact List.find?_cons_of_pos _ ha

lemma rollback_of_head (s : AuditState) (t : String) (rid : Int)
    (e : AuditLogEntry) (rest : List AuditLogEntry)
    (hlog : s.log = e :: rest) (ht : e.table_name = t)
    (hr : e.record_id = rid) :
    rollback_last_operation s t rid = applyInverse s e := by
  unfold rollback_last_operation get_audit_logs
  rw [hlog]
  rw [List.filter_cons_of_pos (by simp [ht])]
  rw [find?_take_cons_pos _ e _ 100 (by decide) (by simp [hr])]

/-- Claim C2 round trip: a repository update that snapshots the full
pre-update row, immediately followed by `rollback_last_operation` on the
same record, restores the row to the snapshot.  Hypotheses: the table
keys its rows by the column `t ++ "_id"` (true of tables such as
`vehicle`, `material`, `user`; NOT of `repair_assignment`), the update
data does not touch that column, and the row has pairwise distinct
column names. -/
lemma audited_update_round_trip (s : AuditState) (t : String) (rid : Int)
    (newData oldRow : Obj)
    (hfind : (s.db.getTable t).find? (rowMatches (t ++ "_id") rid) = some oldRow)
    (hne : oldRow ≠ [])
    (hnd : (oldRow.map Prod.fst).Nodup)
    (hid : Obj.lookupField newData (t ++ "_id") = none) :
    ∃ s2 : AuditState,
      rollback_last_operation (audited_update_row s t rid newData) t rid =
        Except.ok ("Rolled back last UPDATE to previous state.", s2) ∧
      s2.log = (audited_update_row s t rid newData).log ∧
      (s2.db.getTable t).find? (rowMatches (t ++ "_id") rid) = some oldRow := by
  have hnef : oldRow.isEmpty = false := by
    cases oldRow with
    | nil => exact absurd rfl hne
    | cons a l => rfl
  have hmne : (mergeRow oldRow newData).isEmpty = false := by
    unfold mergeRow
    cases oldRow with
    | nil => exact absurd rfl hne
    | cons a l => rfl
  have hE : audited_update_row s t rid newData =
      { db := s.db.update_data t newData (t ++ "_id") rid,
        log := { table_name := t, record_id := rid,
                 operation := OperationType.UPDATE,
                 old_data := some oldRow,
                 new_data := some (mergeRow oldRow newData) } :: s.log } := by
    unfold audited_update_row
    rw [hfind]
    simp [log_audit_event, serializeIfNonempty, hnef, hmne]
  have hroll := rollback_of_head (audited_update_row s t rid newData) t rid
    { table_name := t, record_id := rid, operation := OperationType.UPDATE,
      old_data := some oldRow, new_data := some (mergeRow oldRow newData) }
    s.log (by rw [hE]) rfl rfl
  have happ : applyInverse (audited_update_row s t rid newData)
      { table_name := t, record_id := rid, operation := OperationType.UPDATE,
        old_data := some oldRow, new_data := some (mergeRow oldRow newData) } =
      Except.ok ("Rolled back last UPDATE to previous state.",
        { db := (audited_update_row s t rid newData).db.update_data t oldRow
            (t ++ "_id") rid,
          log := (audited_update_row s t rid newData).log }) := by
    unfold applyInverse
    dsimp only
    rw [if_neg (by simp [hnef])]
  have hor : rowMatches (t ++ "_id") rid oldRow = true := List.find?_some hfind
  have hol : Obj.lookupField oldRow (t ++ "_id") = some (Val.num (rid : ℚ)) := by
    unfold rowMatches at hor
    simpa using hor
  have hp1 : ∀ a, rowMatches (t ++ "_id") rid a = true →
      rowMatches (t ++ "_id") rid (mergeRow a newData) = true := by
    intro a ha
    rw [rowMatches_mergeRow_of_none a newData _ rid hid]
    exact ha
  have hp2 : ∀ a, rowMatches (t ++ "_id") rid a = true →
      rowMatches (t ++ "_id") rid (mergeRow a oldRow) = true := by
    intro a ha
    exact rowMatches_mergeRow_of_some a oldRow _ rid ha hol
  have hstep1 := find?_condMap (rowMatches (t ++ "_id") rid)
    (fun r => mergeRow r newData) hp1 (s.db.getTable t) oldRow hfind
  have hstep2 := find?_condMap (rowMatches (t ++ "_id") rid)
    (fun r => mergeRow r oldRow) hp2
    ((s.db.getTable t).map
      (fun a => if rowMatches (t ++ "_id") rid a then mergeRow a newData else a))
    (mergeRow oldRow newData) hstep1
  dsimp only at hstep1 hstep2
  refine ⟨AuditState.mk
      ((audited_update_row s t rid newData).db.update_data t oldRow
        (t ++ "_id") rid)
      ((audited_update_row s t rid newData).log),
    by rw [hroll, happ], rfl, ?_⟩
  rw [hE]
  dsimp only
  rw [update_data_getTable, update_data_getTable]
  rw [hstep2, mergeRow_restore oldRow newData hnd]

/-- Replace only the store component of an `AuditState`. -/
def AuditState.withDb (s : AuditState) (db : DB) : AuditState :=
  { s with db := db }

lemma applyInverse_insert (s : AuditState) (e : AuditLogEntry)
    (hop : e.operation = OperationType.INSERT) :
    applyInverse s e = Except.ok ("Rolled back last INSERT: record deleted.",
      s.withDb (s.db.delete_data e.table_name
        (e.table_name ++ "_id") e.record_id)) := by
  obtain ⟨tn, rid, op, od, nd⟩ := e
  cases hop
  rfl

lemma applyInverse_update (s : AuditState) (e : AuditLogEntry) (od : Obj)
    (hop : e.operation = OperationType.UPDATE) (hod : e.old_data = some od)
    (hne : od ≠ []) :
    applyInverse s e = Except.ok ("Rolled back last UPDATE to previous state.",
      s.withDb (s.db.update_data e.table_name od
        (e.table_name ++ "_id") e.record_id)) := by
  obtain ⟨tn, rid, op, od0, nd⟩ := e
  cases hop
  cases hod
  unfold applyInverse
  dsimp only
  rw [if_neg (by simpa [List.isEmpty_iff] using hne)]
  rfl

lemma applyInverse_delete (s : AuditState) (e : AuditLogEntry) (od : Obj)
    (hop : e.operation = OperationType.DELETE) (hod : e.old_data = some od)
    (hne : od ≠ []) :
    applyInverse s e = Except.ok ("Rolled back last DELETE: record re-inserted.",
      s.withDb (s.db.insert_data e.table_name od)) := by
  obtain ⟨tn, rid, op, od0, nd⟩ := e
  cases hop
  cases hod
  unfold applyInverse
  dsimp only
  rw [if_neg (by simpa [List.isEmpty_iff] using hne)]
  rfl

lemma rollback_eq_applyInverse (s : AuditState) (t : String) (rid : Int)
    (e : AuditLogEntry)
    (hf : (get_audit_logs s.log (some t) none 100).find?
      (fun e2 => e2.record_id == rid) = some e) :
    rollback_last_operation s t rid = applyInverse s e := by
  unfold rollback_last_operation
  rw [hf]

lemma rollback_find_facts (s : AuditState) (t : String) (rid : Int)
    (e : AuditLogEntry)
    (hf : (get_audit_logs s.log (some t) none 100).find?
      (fun e2 => e2.record_id == rid) = some e) :
    e.table_name = t ∧ e.record_id = rid := by
  constructor
  · have hmem := List.mem_of_find?_eq_some hf
    have hmf : e ∈ s.log.filter (fun e2 =>
        (match some t with
         | some t2 => e2.table_name == t2
         | none => true) &&
        (match (none : Option OperationType) with
         | some op => e2.operation == op
         | none => true)) := (List.take_subset 100 _) hmem
    simpa using (List.mem_filter.mp hmf).2
  · simpa using List.find?_some hf

/-- Claim C2 (amended): `RollbackLast(table, recordID)` scans the 100
newest audit entries for the table, takes the first whose `record_id`
matches, and applies the structural inverse of its operation (INSERT →
delete the record, UPDATE → overwrite the row with `old_data`, DELETE →
reinsert `old_data`); it fails with `NoAuditHistory` exactly when no
match exists among those 100 entries.  Invoked immediately after an
UPDATE whose audit entry holds the full pre-update row it restores the
row to that snapshot (for a table keyed by the `table_id` column, an
update not touching that column, and distinct column names).  Rolling
back an INSERT deletes the record but leaves the audit log unchanged, so
a subsequent `RollbackLast` on the same id finds the same entry and
succeeds again instead of failing with `NoAuditHistory`. -/
theorem rollback_last_operation_spec :
    (∀ (s : AuditState) (t : String) (rid : Int),
      rollback_last_operation s t rid =
          Except.error RollbackError.noAuditHistory ↔
        ∀ e ∈ get_audit_logs s.log (some t) none 100, e.record_id ≠ rid) ∧
    (∀ (s : AuditState) (t : String) (rid : Int) (e : AuditLogEntry),
      (get_audit_logs s.log (some t) none 100).find?
          (fun e2 => e2.record_id == rid) = some e →
        rollback_last_operation s t rid = applyInverse s e ∧
        e.table_name = t ∧ e.record_id = rid) ∧
    (∀ (s : AuditState) (e : AuditLogEntry),
      (e.operation = OperationType.INSERT →
        applyInverse s e = Except.ok ("Rolled back last INSERT: record deleted.",
          s.withDb (s.db.delete_data e.table_name
            (e.table_name ++ "_id") e.record_id))) ∧
      (∀ od : Obj, e.operation = OperationType.UPDATE → e.old_data = some od →
        od ≠ [] →
        applyInverse s e = Except.ok ("Rolled back last UPDATE to previous state.",
          s.withDb (s.db.update_data e.table_name od
            (e.table_name ++ "_id") e.record_id))) ∧
      (∀ od : Obj, e.operation = OperationType.DELETE → e.old_data = some od →
        od ≠ [] →
        applyInverse s e = Except.ok ("Rolled back last DELETE: record re-inserted.",
          s.withDb (s.db.insert_data e.table_name od)))) ∧
    (∀ (s : AuditState) (t : String) (rid : Int) (newData oldRow : Obj),
      (s.db.getTable t).find? (rowMatches (t ++ "_id") rid) = some oldRow →
      oldRow ≠ [] →
      (oldRow.map Prod.fst).Nodup →
      Obj.lookupField newData (t ++ "_id") = none →
      ∃ s2 : AuditState,
        rollback_last_operation (audited_update_row s t rid newData) t rid =
          Except.ok ("Rolled back last UPDATE to previous state.", s2) ∧
        s2.log = (audited_update_row s t rid newData).log ∧
        (s2.db.getTable t).find? (rowMatches (t ++ "_id") rid) = some oldRow) ∧
    (∀ (s : AuditState) (t : String) (rid : Int) (e : AuditLogEntry)
        (m : String) (s1 : AuditState),
      (get_audit_logs s.log (some t) none 100).find?
          (fun e2 => e2.record_id == rid) = some e →
      e.operation = OperationType.INSERT →
      rollback_last_operation s t rid = Except.ok (m, s1) →
      s1.log = s.log ∧
      rollback_last_operation s1 t rid =
        Except.ok ("Rolled back last INSERT: record deleted.",
          s1.withDb (s1.db.delete_data t (t ++ "_id") rid))) := by
  refine ⟨?_, ?_, ?_, ?_, ?_⟩
  · intro s t rid
    cases hf : (get_audit_logs s.log (some t) none 100).find?
        (fun e2 => e2.record_id == rid) with
    | none =>
      constructor
      · intro _ e he
        simpa using List.find?_eq_none.mp hf e he
      · intro _
        unfold rollback_last_operation
        rw [hf]
    | some e =>
      constructor
      · intro h
        rw [rollback_eq_applyInverse s t rid e hf] at h
        exact absurd h (applyInverse_ne_noAuditHistory s e)
      · intro hall
        have hrid : e.record_id = rid := (rollback_find_facts s t rid e hf).2
        exact absurd hrid (hall e (List.mem_of_find?_eq_some hf))
  · intro s t rid e hf
    exact ⟨rollback_eq_applyInverse s t rid e hf,
      rollback_find_facts s t rid e hf⟩
  · intro s e
    exact ⟨applyInverse_insert s e,
      fun od hop hod hne => applyInverse_update s e od hop hod hne,
      fun od hop hod hne => applyInverse_delete s e od hop hod hne⟩
  · intro s t rid newData oldRow hfind hne hnd hid
    exact audited_update_round_trip s t rid newData oldRow hfind hne hnd hid
  · intro s t rid e m s1 hf hop hrol
    rw [rollback_eq_applyInverse s t rid e hf] at hrol
    have hlog : s1.log = s.log := applyInverse_log_eq s e m s1 hrol
    have ht := (rollback_find_facts s t rid e hf).1
    have hrid := (rollback_find_facts s t rid e hf).2
    refine ⟨hlog, ?_⟩
    have hf1 : (get_audit_logs s1.log (some t) none 100).find?
        (fun e2 => e2.record_id == rid) = some e := by
      rw [hlog]
      exact hf
    rw [rollback_eq_applyInverse s1 t rid e hf1, applyInverse_insert s1 e hop,
      ht, hrid]

/-- The initial state for the C2 counterexample: vehicle row 7 was just
inserted and audited. -/
def c2Row : Obj := [("vehicle_id", Val.num 7), ("color", Val.str "red")]

def c2InsertState0 : AuditState :=
  { db := [("vehicle", [c2Row])],
    log := [{ table_name := "vehicle", record_id := 7,
              operation := OperationType.INSERT, old_data := none,
              new_data := some c2Row }] }

/-- After rolling back the INSERT: the row is gone, the log is
untouched. -/
def c2InsertState1 : AuditState :=
  { db := [("vehicle", [])],
    log := c2InsertState0.log }

/-- Claim C2 counterexample: rolling back an INSERT leaves its audit
entry in place, so the claimed idempotence boundary fails — the second
`RollbackLast("vehicle", 7)` does not fail with `NoAuditHistory`; it
finds the same entry and reports success again. -/
theorem rollback_insert_entry_survives :
    rollback_last_operation c2InsertState0 "vehicle" 7 =
      Except.ok ("Rolled back last INSERT: record deleted.", c2InsertState1) ∧
    rollback_last_operation c2InsertState1 "vehicle" 7 =
      Except.ok ("Rolled back last INSERT: record deleted.", c2InsertState1) ∧
    rollback_last_operation c2InsertState1 "vehicle" 7 ≠
      Except.error RollbackError.noAuditHistory := by
  refine ⟨rfl, rfl, ?_⟩
  intro h
  rw [show rollback_last_operation c2InsertState1 "vehicle" 7 =
      Except.ok ("Rolled back last INSERT: record deleted.", c2InsertState1)
    from rfl] at h
  exact Except.noConfusion h

/-- A store as it stands just before the round-trip witness: table
`vehicle` with row 7, empty log. -/
def c2UpdateState : AuditState :=
  { db := [("vehicle", [c2Row])], log := [] }

theorem rollback_last_operation_spec_witness :
    ∃ s2 : AuditState,
      rollback_last_operation
          (audited_update_row c2UpdateState "vehicle" 7
            [("color", Val.str "blue")]) "vehicle" 7 =
        Except.ok ("Rolled back last UPDATE to previous state.", s2) ∧
      s2.log = (audited_update_row c2UpdateState "vehicle" 7
        [("color", Val.str "blue")]).log ∧
      ((s2.db.getTable "vehicle").find?
        (rowMatches ("vehicle" ++ "_id") 7)) = some c2Row :=
  rollback_last_operation_spec.2.2.2.1 c2UpdateState "vehicle" 7
    [("color", Val.str "blue")] c2Row rfl (by decide) (by decide) rfl

/-- The pre-update snapshots used in the C6 counterexample: a vehicle row
whose column `x` went 0 → 1 → 2 through two audited updates. -/
def c6Row (n : ℚ) : Obj := [("vehicle_id", Val.num 1), ("x", Val.num n)]

def c6Entry (a b : ℚ) : AuditLogEntry :=
  { table_name := "vehicle", record_id := 1,
    operation := OperationType.UPDATE,
    old_data := some (c6Row a), new_data := some (c6Row b) }

/-- State after the two updates: newest entry first. -/
def c6State0 : AuditState :=
  { db := [("vehicle", [c6Row 2])], log := [c6Entry 1 2, c6Entry 0 1] }

/-- State after the first rollback: `x` back to 1, log unchanged. -/
def c6State1 : AuditState :=
  { db := [("vehicle", [c6Row 1])], log := [c6Entry 1 2, c6Entry 0 1] }

/-- Claim C6 counterexample: after two audited updates (0 → 1 → 2), the
first `RollbackMostRecent` restores `x = 1` but appends no audit entry,
and the second call processes the same newest entry again, leaving
`x = 1` — the two most recent mutations are NOT both reversed (that would
end at `x = 0`), contradicting the claim that the inverse is recorded as
an audited write and that two calls reverse the two newest mutations. -/
theorem rollback_most_recent_repeats_same_entry :
    rollback_most_recent c6State0 =
      Except.ok ("Rolled back last UPDATE to previous state.", c6State1) ∧
    c6State1.log = c6State0.log ∧
    rollback_most_recent c6State1 =
      Except.ok ("Rolled back last UPDATE to previous state.", c6State1) ∧
    c6State1.db.getTable "vehicle" = [c6Row 1] ∧
    c6Row 1 ≠ c6Row 0 := by
  refine ⟨rfl, rfl, rfl, rfl, by decide⟩

theorem rollback_most_recent_spec_witness :
    (rollback_most_recent c6State0 = Except.error RollbackError.noAuditHistory ↔
      c6State0.log = []) ∧
    rollback_most_recent c6State0 = applyInverse c6State0 (c6Entry 1 2) ∧
    c6State1.log = c6State0.log ∧
    rollback_most_recent c6State1 = applyInverse c6State1 (c6Entry 1 2) :=
  ⟨rollback_most_recent_spec.1 c6State0,
   rollback_most_recent_spec.2.1 c6State0 (c6Entry 1 2) [c6Entry 0 1] rfl,
   rollback_most_recent_spec.2.2.1 c6State0
     "Rolled back last UPDATE to previous state." c6State1 rfl,
   rollback_most_recent_spec.2.2.2 c6State0 (c6Entry 1 2) [c6Entry 0 1]
     "Rolled back last UPDATE to previous state." c6State1 rfl rfl⟩

/-! ## Claim C3: every repository write appends exactly one audit entry -/

/-- Build an audit entry (used to state audit-trail theorems without
structure literals). -/
def mkAuditEntry (t : String) (rid : Int) (op : OperationType)
    (od nd : Option Obj) : AuditLogEntry :=
  { table_name := t, record_id := rid, operation := op,
    old_data := od, new_data := nd }

/-- Claim C3 (amended): every successful insert, update, or delete
through the modelled repository operations appends exactly one new
`AuditLogEntry` whose `table_name` and `record_id` match the mutated row;
`old_data` is absent for INSERT and `new_data` absent for DELETE, and the
snapshots cover the written fields — the full modelled row for creates,
deletes, order-status updates and time updates, but only the `status`
field for assignment status updates. -/
theorem repository_writes_append_one_audit_entry :
    (∀ (s : EngineState) (order_id staff_id : Int) (status : String)
        (time_worked : Option ℚ),
      (create_repair_assignment s order_id staff_id status time_worked).2.audit_log =
        mkAuditEntry "repair_assignment" s.next_id OperationType.INSERT none
          (some (assignmentObjCreated
            (create_repair_assignment s order_id staff_id status time_worked).1)) ::
          s.audit_log) ∧
    (∀ (s : EngineState) (assignment_id staff_id : Int) (new_status : String)
        (a : RepairAssignmentRow) (s' : EngineState),
      update_assignment_status s assignment_id staff_id new_status = (some a, s') →
      s'.audit_log =
        mkAuditEntry "repair_assignment" assignment_id OperationType.UPDATE
          (some [("status", Val.str "pending")])
          (some [("status", Val.str new_status)]) :: s.audit_log) ∧
    (∀ (s : EngineState) (assignment_id : Int) (time_worked : ℚ)
        (a : RepairAssignmentRow) (s' : EngineState),
      update_repair_assignment_time s assignment_id time_worked = (some a, s') →
      ∃ oldRow : RepairAssignmentRow,
        s.assignments.find? (fun r => r.assignment_id == assignment_id) =
          some oldRow ∧
        a = { oldRow with time_worked := some time_worked } ∧
        s'.audit_log =
          mkAuditEntry "repair_assignment" assignment_id OperationType.UPDATE
            (some (assignmentObjRaw oldRow)) (some (assignmentObjRaw a)) ::
            s.audit_log) ∧
    (∀ (s : EngineState) (assignment_id : Int) (s' : EngineState),
      delete_repair_assignment s assignment_id = (true, s') →
      ∃ oldRow : RepairAssignmentRow,
        s.assignments.find? (fun r => r.assignment_id == assignment_id) =
          some oldRow ∧
        s'.audit_log =
          mkAuditEntry "repair_assignment" assignment_id OperationType.DELETE
            (some (assignmentObjRaw oldRow)) none :: s.audit_log) ∧
    (∀ (s : EngineState) (order_id : Int) (status : RepairStatus)
        (o : RepairOrderRow) (s' : EngineState),
      update_repair_order_status s order_id status = (some o, s') →
      ∃ o0 : RepairOrderRow,
        get_repair_order_by_id s order_id = some o0 ∧
        o = { o0 with status := some status } ∧
        s'.audit_log =
          mkAuditEntry "repair_order" order_id OperationType.UPDATE
            (some (orderObj o0)) (some (orderObj o)) :: s.audit_log) ∧
    (∀ (s : EngineState) (vehicle_id customer_id request_id : Int)
        (required_staff_type : String) (status : RepairStatus)
        (remarks : Option String),
      (create_repair_order s vehicle_id customer_id request_id
        required_staff_type status remarks).2.audit_log =
        mkAuditEntry "repair_order" s.next_id OperationType.INSERT none
          (some (orderObj (create_repair_order s vehicle_id customer_id
            request_id required_staff_type status remarks).1)) ::
          s.audit_log) := by
  refine ⟨?_, ?_, ?_, ?_, ?_, ?_⟩
  · intro s order_id staff_id status time_worked
    simp [create_repair_assignment, log_audit_event, serializeIfNonempty,
      assignmentObjCreated, mkAuditEntry]
  · intro s assignment_id staff_id new_status a s' h
    unfold update_assignment_status at h
    split at h
    · simp at h
    · split at h
      · simp at h
      · split at h
        · simp at h
        · split at h
          · simp at h
          · rw [Prod.mk.injEq] at h
            rw [← h.2]
            simp [log_audit_event, serializeIfNonempty, mkAuditEntry]
  · intro s assignment_id time_worked a s' h
    unfold update_repair_assignment_time at h
    split at h
    · simp at h
    · rename_i oldRow hfind
      rw [Prod.mk.injEq] at h
      refine ⟨oldRow, hfind, ?_, ?_⟩
      · have := h.1
        injection this with this
        rw [← this]
      · rw [← h.2]
        have ha : a = { oldRow with time_worked := some time_worked } := by
          have := h.1
          injection this with this
          rw [← this]
        rw [ha]
        simp [log_audit_event, serializeIfNonempty, assignmentObjRaw,
          mkAuditEntry]
  · intro s assignment_id s' h
    unfold delete_repair_assignment at h
    split at h
    · simp at h
    · rename_i oldRow hfind
      rw [Prod.mk.injEq] at h
      refine ⟨oldRow, hfind, ?_⟩
      rw [← h.2]
      simp [log_audit_event, serializeIfNonempty, assignmentObjRaw,
        mkAuditEntry]
  · intro s order_id status o s' h
    unfold update_repair_order_status at h
    split at h
    · simp at h
    · rename_i o0 hfind
      rw [Prod.mk.injEq] at h
      refine ⟨o0, hfind, ?_, ?_⟩
      · have := h.1
        injection this with this
        rw [← this]
      · rw [← h.2]
        have ho : o = { o0 with status := some status } := by
          have := h.1
          injection this with this
          rw [← this]
        rw [ho]
        simp [log_audit_event, serializeIfNonempty, orderObj, mkAuditEntry]
  · intro s vehicle_id customer_id request_id required_staff_type status remarks
    simp [create_repair_order, log_audit_event, serializeIfNonempty,
      orderObj, mkAuditEntry]

/-- One pending assignment, used for the C3 counterexample and witness. -/
def c3State : EngineState :=
  { emptyEngine with
    assignments := [⟨5, 1, 7, "pending", none⟩],
    next_id := 6 }

/-- Claim C3 counterexample: the audit entry written by a successful
assignment status update has `old_data` covering only the `status` field,
which differs from the serialized snapshot of the full field set of the
affected row — so old_data/new_data are not always snapshots of the whole
row. -/
theorem status_update_snapshot_is_partial :
    ((update_assignment_status c3State 5 7 "accepted").2.audit_log.head?.map
      (fun e => e.old_data)) = some (some [("status", Val.str "pending")]) ∧
    (assignmentObjRaw ⟨5, 1, 7, "pending", none⟩).map Prod.fst =
      ["assignment_id", "order_id", "staff_id", "status", "time_worked"] ∧
    (some [("status", Val.str "pending")] : Option Obj) ≠
      some (assignmentObjRaw ⟨5, 1, 7, "pending", none⟩) := by
  refine ⟨rfl, rfl, by decide⟩

theorem repository_writes_append_one_audit_entry_witness :
    (update_assignment_status c3State 5 7 "accepted").2.audit_log =
      mkAuditEntry "repair_assignment" 5 OperationType.UPDATE
        (some [("status", Val.str "pending")])
        (some [("status", Val.str "accepted")]) :: c3State.audit_log :=
  repository_writes_append_one_audit_entry.2.1 c3State 5 7 "accepted"
    ⟨5, 1, 7, "accepted", none⟩
    (update_assignment_status c3State 5 7 "accepted").2 rfl

/-! ## Claims C4 and C1: the accept/reject lifecycle -/

/-- The state written by a successful
`RepairAssignmentService.update_assignment_status`. -/
def statusUpdatedState (s : EngineState) (assignment_id : Int)
    (ns : String) : EngineState :=
  EngineState.mk s.orders
    (s.assignments.map
      (fun r => if r.assignment_id == assignment_id then { r with status := ns } else r))
    s.staff s.users s.repair_logs s.materials
    (mkAuditEntry "repair_assignment" assignment_id OperationType.UPDATE
      (some [("status", Val.str "pending")])
      (some [("status", Val.str ns)]) :: s.audit_log)
    s.next_id

/-- The state written by a successful
`RepairOrderService.update_repair_order_status` (with `o` the pre-update
order). -/
def orderUpdatedState (s : EngineState) (order_id : Int) (st : RepairStatus)
    (o : RepairOrderRow) : EngineState :=
  EngineState.mk
    (s.orders.map
      (fun r => if r.order_id == order_id then { r with status := some st } else r))
    s.assignments s.staff s.users s.repair_logs s.materials
    (mkAuditEntry "repair_order" order_id OperationType.UPDATE
      (some (orderObj o))
      (some (orderObj { o with status := some st })) :: s.audit_log)
    s.next_id

lemma update_assignment_status_success (s : EngineState) (aid sid : Int)
    (ns : String) (a : RepairAssignmentRow)
    (hg : get_repair_assignment_by_id s aid = some a)
    (hsid : a.staff_id = sid) (hst : a.status = "pending")
    (hns : ns = "accepted" ∨ ns = "rejected") :
    update_assignment_status s aid sid ns =
      (some { a with status := ns }, statusUpdatedState s aid ns) := by
  unfold update_assignment_status
  rw [hg]
  dsimp only
  rw [if_neg (by simp [hsid]), if_neg (by simp [hst]),
    if_neg (by rcases hns with h | h <;> simp [h])]
  rfl

lemma update_repair_order_status_success (s : EngineState) (order_id : Int)
    (st : RepairStatus) (o : RepairOrderRow)
    (hg : get_repair_order_by_id s order_id = some o) :
    update_repair_order_status s order_id st =
      (some { o with status := some st }, orderUpdatedState s order_id st o) := by
  unfold update_repair_order_status
  rw [hg]
  rfl

lemma assign_order_noEligible_eq (s : EngineState) (order_id : Int)
    (ex : Option Int) (k : Nat) (o : RepairOrderRow) (rst : String)
    (ho : get_repair_order_by_id s order_id = some o)
    (hrst : o.required_staff_type = some rst)
    (hel : get_eligible_staff s rst ex = []) :
    assign_order s order_id ex k = (Except.error AssignError.noEligibleStaff, s) := by
  simp [assign_order, ho, hrst, hel]

lemma assign_order_state_cases (s : EngineState) (order_id : Int)
    (ex : Option Int) (k : Nat) :
    (assign_order s order_id ex k).2 = s ∨
    ∃ sid2 : Int, (assign_order s order_id ex k).2 =
      (create_repair_assignment s order_id sid2 "pending" none).2 := by
  unfold assign_order
  cases ho : get_repair_order_by_id s order_id with
  | none => left; rfl
  | some o =>
    dsimp only
    cases hrst : o.required_staff_type with
    | none => left; rfl
    | some rst =>
      dsimp only
      cases hel : get_eligible_staff s rst ex with
      | nil => left; rfl
      | cons e0 rest =>
        dsimp only
        by_cases hz : (((e0 :: rest).getD (k % (e0 :: rest).length) e0).staff_id == 0) = true
        · rw [if_pos hz]
          left; rfl
        · rw [if_neg hz]
          right
          exact ⟨((e0 :: rest).getD (k % (e0 :: rest).length) e0).staff_id, rfl⟩

lemma accept_order_notFound (s : EngineState) (aid sid : Int) (acc : Bool)
    (k : Nat) (hg : get_repair_assignment_by_id s aid = none) :
    accept_order s aid sid acc k = (Except.error RespondError.assignmentNotFound, s) := by
  unfold accept_order
  rw [hg]

lemma accept_order_forbidden (s : EngineState) (aid sid : Int) (acc : Bool)
    (k : Nat) (a : RepairAssignmentRow)
    (hg : get_repair_assignment_by_id s aid = some a)
    (hsid : a.staff_id ≠ sid) :
    accept_order s aid sid acc k = (Except.error RespondError.notOwnedByStaff, s) := by
  unfold accept_order
  rw [hg]
  dsimp only
  rw [if_pos (by simp [hsid])]

lemma accept_order_notPending (s : EngineState) (aid sid : Int) (acc : Bool)
    (k : Nat) (a : RepairAssignmentRow)
    (hg : get_repair_assignment_by_id s aid = some a)
    (hsid : a.staff_id = sid) (hst : a.status ≠ "pending") :
    accept_order s aid sid acc k = (Except.error RespondError.notPending, s) := by
  unfold accept_order
  rw [hg]
  dsimp only
  rw [if_neg (by simp [hsid]), if_pos (by simp [hst])]

lemma accept_order_accept_ok (s : EngineState) (aid sid : Int) (k : Nat)
    (a : RepairAssignmentRow) (o : RepairOrderRow)
    (hg : get_repair_assignment_by_id s aid = some a)
    (hsid : a.staff_id = sid) (hst : a.status = "pending")
    (ho : get_repair_order_by_id s a.order_id = some o) :
    accept_order s aid sid true k =
      (Except.ok { a with status := "accepted" },
        orderUpdatedState (statusUpdatedState s aid "accepted") a.order_id
          RepairStatus.IN_PROGRESS o) := by
  unfold accept_order
  rw [hg]
  dsimp only
  rw [if_neg (by simp [hsid]), if_neg (by simp [hst])]
  rw [show (if true = true then "accepted" else "rejected") = "accepted" from rfl]
  rw [update_assignment_status_success s aid sid "accepted" a hg hsid hst
    (Or.inl rfl)]
  dsimp only
  rw [if_pos (show true = true from rfl)]
  rw [update_repair_order_status_success (statusUpdatedState s aid "accepted")
    a.order_id RepairStatus.IN_PROGRESS o ho]

lemma accept_order_reject_noEligible (s : EngineState) (aid sid : Int)
    (k : Nat) (a : RepairAssignmentRow) (o : RepairOrderRow) (rst : String)
    (hg : get_repair_assignment_by_id s aid = some a)
    (hsid : a.staff_id = sid) (hst : a.status = "pending")
    (ho : get_repair_order_by_id s a.order_id = some o)
    (hrst : o.required_staff_type = some rst)
    (hel : get_eligible_staff s rst (some sid) = []) :
    accept_order s aid sid false k =
      (Except.error (RespondError.reassignFailed AssignError.noEligibleStaff),
        statusUpdatedState s aid "rejected") := by
  unfold accept_order
  rw [hg]
  dsimp only
  rw [if_neg (by simp [hsid]), if_neg (by simp [hst])]
  rw [show (if false = true then "accepted" else "rejected") = "rejected" from rfl]
  rw [update_assignment_status_success s aid sid "rejected" a hg hsid hst
    (Or.inr rfl)]
  dsimp only
  rw [if_neg (show ¬(false = true) by simp)]
  rw [assign_order_noEligible_eq (statusUpdatedState s aid "rejected")
    a.order_id (some sid) k o rst ho hrst hel]
  rfl

lemma accept_order_reject_ok (s : EngineState) (aid sid : Int) (k : Nat)
    (a : RepairAssignmentRow) (o : RepairOrderRow) (rst : String)
    (e0 : StaffRow) (rest : List StaffRow)
    (hg : get_repair_assignment_by_id s aid = some a)
    (hsid : a.staff_id = sid) (hst : a.status = "pending")
    (ho : get_repair_order_by_id s a.order_id = some o)
    (hrst : o.required_staff_type = some rst)
    (hel : get_eligible_staff s rst (some sid) = e0 :: rest)
    (hz : (chosenStaff e0 rest k).staff_id ≠ 0) :
    accept_order s aid sid false k =
      (Except.ok { a with status := "rejected" },
        (create_repair_assignment (statusUpdatedState s aid "rejected")
          a.order_id (chosenStaff e0 rest k).staff_id "pending" none).2) := by
  unfold accept_order
  rw [hg]
  dsimp only
  rw [if_neg (by simp [hsid]), if_neg (by simp [hst])]
  rw [show (if false = true then "accepted" else "rejected") = "rejected" from rfl]
  rw [update_assignment_status_success s aid sid "rejected" a hg hsid hst
    (Or.inr rfl)]
  dsimp only
  rw [if_neg (show ¬(false = true) by simp)]
  rw [assign_order_success_eq (statusUpdatedState s aid "rejected") a.order_id
    (some sid) k o rst e0 rest ho hrst hel hz]
  simp [create_repair_assignment, log_audit_event, serializeIfNonempty,
    assignmentObjCreated, mkPendingAssignment]

/-- Live count over a bare assignment list. -/
def liveCountL (l : List RepairAssignmentRow) (order_id : Int) : Nat :=
  l.countP (fun a => a.order_id == order_id && isLive a)

lemma liveCount_eq_liveCountL (s : EngineState) (order_id : Int) :
    liveCount s order_id = liveCountL s.assignments order_id := rfl

lemma find?_decomp {α : Type} (p : α → Bool) :
    ∀ (l : List α) (a : α), l.find? p = some a →
      ∃ l1 l2, l = l1 ++ a :: l2 ∧ ∀ x ∈ l1, p x = false := by
  intro l
  induction l with
  | nil => intro a h; cases h
  | cons x xs ih =>
    intro a h
    cases hx : p x with
    | true =>
      rw [List.find?_cons_of_pos _ hx] at h
      injection h with h
      subst h
      exact ⟨[], xs, rfl, by simp⟩
    | false =>
      rw [List.find?_cons_of_neg _ (by simp [hx])] at h
      rcases ih a h with ⟨l1, l2, heq, hl1⟩
      refine ⟨x :: l1, l2, by rw [heq]; rfl, ?_⟩
      intro y hy
      rcases List.mem_cons.mp hy with h1 | h1
      · subst h1; exact hx
      · exact hl1 y h1

lemma liveCountL_statusMap (l : List RepairAssignmentRow) (aid : Int)
    (ns : String) (raw : RepairAssignmentRow) (oid : Int)
    (hfind : l.find? (fun r => r.assignment_id == aid) = some raw)
    (hnd : (l.map RepairAssignmentRow.assignment_id).Nodup) :
    liveCountL (l.map
        (fun r => if r.assignment_id == aid then { r with status := ns } else r)) oid +
      (if (raw.order_id == oid && isLive raw) = true then 1 else 0) =
    liveCountL l oid +
      (if (raw.order_id == oid && isLive { raw with status := ns }) = true
        then 1 else 0) := by
  rcases find?_decomp _ l raw hfind with ⟨l1, l2, heq, hl1⟩
  have hraw_id : (raw.assignment_id == aid) = true := by
    simpa using List.find?_some hfind
  subst heq
  have hl2 : ∀ x ∈ l2, (x.assignment_id == aid) = false := by
    intro x hx
    have hnotin : raw.assignment_id ∉ l2.map RepairAssignmentRow.assignment_id := by
      rw [List.map_append, List.map_cons] at hnd
      have h2 := hnd.of_append_right
      exact (List.nodup_cons.mp h2).1
    have hne : x.assignment_id ≠ aid := by
      intro hc
      apply hnotin
      have hr : raw.assignment_id = aid := by simpa using hraw_id
      rw [hr, ← hc]
      exact List.mem_map_of_mem RepairAssignmentRow.assignment_id hx
    simpa using hne
  rw [List.map_append, List.map_cons]
  have hmap1 : l1.map
      (fun r => if r.assignment_id == aid then { r with status := ns } else r) = l1 := by
    rw [show l1.map
        (fun r => if r.assignment_id == aid then { r with status := ns } else r) =
        l1.map id from List.map_congr_left (fun x hx => by simp [hl1 x hx])]
    exact List.map_id l1
  have hmap2 : l2.map
      (fun r => if r.assignment_id == aid then { r with status := ns } else r) = l2 := by
    rw [show l2.map
        (fun r => if r.assignment_id == aid then { r with status := ns } else r) =
        l2.map id from List.map_congr_left (fun x hx => by simp [hl2 x hx])]
    exact List.map_id l2
  rw [hmap1, hmap2, if_pos hraw_id]
  unfold liveCountL
  rw [List.countP_append, List.countP_append, List.countP_cons, List.countP_cons]
  dsimp only
  ring

lemma liveCountL_append_single (l : List RepairAssignmentRow)
    (na : RepairAssignmentRow) (oid : Int) :
    liveCountL (l ++ [na]) oid =
      liveCountL l oid + (if (na.order_id == oid && isLive na) = true then 1 else 0) := by
  unfold liveCountL
  rw [List.countP_append]
  simp [List.countP_cons]

lemma liveCountL_zero_of_lt (l : List RepairAssignmentRow) (n : Int)
    (h : ∀ a ∈ l, a.order_id < n) : liveCountL l n = 0 := by
  unfold liveCountL
  rw [List.countP_eq_zero]
  intro a ha
  have := h a ha
  simp only [Bool.and_eq_true, not_and]
  intro hb
  have : a.order_id = n := by simpa using hb
  omega

lemma update_repair_order_status_assignments (s : EngineState)
    (order_id : Int) (st : RepairStatus) :
    (update_repair_order_status s order_id st).2.assignments = s.assignments := by
  unfold update_repair_order_status
  cases get_repair_order_by_id s order_id <;> rfl

lemma accept_order_accept_state (s : EngineState) (aid sid : Int) (k : Nat)
    (a : RepairAssignmentRow)
    (hg : get_repair_assignment_by_id s aid = some a)
    (hsid : a.staff_id = sid) (hst : a.status = "pending") :
    (accept_order s aid sid true k).2 =
      (update_repair_order_status (statusUpdatedState s aid "accepted")
        a.order_id RepairStatus.IN_PROGRESS).2 := by
  unfold accept_order
  rw [hg]
  dsimp only
  rw [if_neg (by simp [hsid]), if_neg (by simp [hst])]
  rw [show (if true = true then "accepted" else "rejected") = "accepted" from rfl]
  rw [update_assignment_status_success s aid sid "accepted" a hg hsid hst
    (Or.inl rfl)]
  dsimp only
  rw [if_pos (show true = true from rfl)]
  rcases hres : update_repair_order_status (statusUpdatedState s aid "accepted")
    a.order_id RepairStatus.IN_PROGRESS with ⟨res, s2⟩
  cases res <;> rfl

lemma accept_order_reject_state (s : EngineState) (aid sid : Int) (k : Nat)
    (a : RepairAssignmentRow)
    (hg : get_repair_assignment_by_id s aid = some a)
    (hsid : a.staff_id = sid) (hst : a.status = "pending") :
    (accept_order s aid sid false k).2 =
      (assign_order (statusUpdatedState s aid "rejected") a.order_id
        (some sid) k).2 := by
  unfold accept_order
  rw [hg]
  dsimp only
  rw [if_neg (by simp [hsid]), if_neg (by simp [hst])]
  rw [show (if false = true then "accepted" else "rejected") = "rejected" from rfl]
  rw [update_assignment_status_success s aid sid "rejected" a hg hsid hst
    (Or.inr rfl)]
  dsimp only
  rw [if_neg (show ¬(false = true) by simp)]
  rcases hres : assign_order (statusUpdatedState s aid "rejected") a.order_id
    (some sid) k with ⟨res, s2⟩
  cases res with
  | ok na => rfl
  | error e =>
    dsimp only
    by_cases hv : e.isValueError = true
    · rw [if_pos hv]
    · rw [if_neg hv]

lemma get_assignment_raw (s : EngineState) (aid : Int)
    (a : RepairAssignmentRow)
    (hg : get_repair_assignment_by_id s aid = some a) :
    ∃ raw : RepairAssignmentRow,
      s.assignments.find? (fun r => r.assignment_id == aid) = some raw ∧
      coerceAssignment raw = a := by
  unfold get_repair_assignment_by_id at hg
  exact Option.map_eq_some'.mp hg

lemma raw_status_pending (s : EngineState) (raw : RepairAssignmentRow)
    (hWF : EngineWF s) (hmem : raw ∈ s.assignments)
    (hcs : (coerceAssignment raw).status = "pending") :
    raw.status = "pending" := by
  unfold coerceAssignment at hcs
  dsimp only at hcs
  rcases hWF.status_wf raw hmem with h | h | h
  · exact h
  · rw [h] at hcs; simp at hcs
  · rw [h] at hcs; simp at hcs

lemma reject_noEligible_liveCount (s : EngineState) (aid : Int)
    (a : RepairAssignmentRow)
    (hWF : EngineWF s) (hinv : OrderAssignmentInv s)
    (hg : get_repair_assignment_by_id s aid = some a)
    (hst : a.status = "pending") :
    liveCount (statusUpdatedState s aid "rejected") a.order_id = 0 := by
  rcases get_assignment_raw s aid a hg with ⟨raw, hraw, hca⟩
  have hrawmem := List.mem_of_find?_eq_some hraw
  have hrawst : raw.status = "pending" :=
    raw_status_pending s raw hWF hrawmem (by rw [hca]; exact hst)
  have hord : a.order_id = raw.order_id := by rw [← hca]; rfl
  have hcount := liveCountL_statusMap s.assignments aid "rejected" raw
    a.order_id hraw hWF.assignment_ids_nodup
  have hlive : isLive raw = true := by simp [isLive, hrawst]
  have hlive2 : isLive { raw with status := "rejected" } = false := by
    simp [isLive]
  have hoo : (raw.order_id == a.order_id) = true := by rw [hord]; simp
  have h1 : (if (raw.order_id == a.order_id && isLive raw) = true
      then 1 else 0) = 1 := by
    rw [hoo, hlive]
    rfl
  have h2 : (if (raw.order_id == a.order_id &&
      isLive { raw with status := "rejected" }) = true then 1 else 0) = 0 := by
    rw [hoo, hlive2]
    rfl
  rw [h1, h2] at hcount
  have hc := hinv a.order_id
  rw [liveCount_eq_liveCountL] at hc
  rw [liveCount_eq_liveCountL]
  show liveCountL (s.assignments.map
    (fun r => if r.assignment_id == aid then { r with status := "rejected" } else r))
    a.order_id = 0
  omega

lemma reject_ok_new_pending (s : EngineState) (aid sid : Int) (k : Nat)
    (a : RepairAssignmentRow) (o : RepairOrderRow) (rst : String)
    (e0 : StaffRow) (rest : List StaffRow)
    (hg : get_repair_assignment_by_id s aid = some a)
    (hsid : a.staff_id = sid) (hst : a.status = "pending")
    (ho : get_repair_order_by_id s a.order_id = some o)
    (hrst : o.required_staff_type = some rst)
    (hel : get_eligible_staff s rst (some sid) = e0 :: rest)
    (hpos : ∀ st ∈ s.staff, 0 < st.staff_id) :
    ∃ na ∈ (accept_order s aid sid false k).2.assignments,
      na.order_id = a.order_id ∧ na.status = "pending" ∧ na.staff_id ≠ sid ∧
      (accept_order s aid sid false k).1 =
        Except.ok { a with status := "rejected" } := by
  have hselMem : chosenStaff e0 rest k ∈ e0 :: rest :=
    getD_mem_of_mem (e0 :: rest) (by simp) _
  have hselElig : chosenStaff e0 rest k ∈ get_eligible_staff s rst (some sid) := by
    rw [hel]; exact hselMem
  have hselStaff := (List.mem_filter.mp hselElig).1
  have hz : (chosenStaff e0 rest k).staff_id ≠ 0 := by
    have := hpos _ hselStaff
    omega
  have hne_sid : (chosenStaff e0 rest k).staff_id ≠ sid := by
    have hp := (List.mem_filter.mp hselElig).2
    simp only [Bool.and_eq_true, Bool.not_eq_true'] at hp
    intro hc
    rw [hc] at hp
    simp at hp
  have heq := accept_order_reject_ok s aid sid k a o rst e0 rest hg hsid hst
    ho hrst hel hz
  refine ⟨RepairAssignmentRow.mk (statusUpdatedState s aid "rejected").next_id
    a.order_id (chosenStaff e0 rest k).staff_id "pending" none, ?_, rfl, rfl,
    hne_sid, ?_⟩
  · rw [show (accept_order s aid sid false k).2 =
      (create_repair_assignment (statusUpdatedState s aid "rejected")
        a.order_id (chosenStaff e0 rest k).staff_id "pending" none).2 from by
      rw [heq]]
    simp [create_repair_assignment]
  · rw [heq]

/-- Claim C4: `RespondToAssignment(assignmentID, staffID, accept)` fails
with `NotFound` when the assignment is absent, `Forbidden` when it
belongs to another staff member, and `InvalidState` when it is not
pending; on accept it marks the assignment `accepted` and moves the order
to `In Progress`; on reject it marks the assignment `rejected` and then
either creates a new pending assignment for the same order with a
different staff member, or — when no eligible staff remain — surfaces the
failure and leaves the order with no live assignment. -/
theorem respond_to_assignment_spec :
    (∀ (s : EngineState) (aid sid : Int) (acc : Bool) (k : Nat),
      get_repair_assignment_by_id s aid = none →
      accept_order s aid sid acc k =
        (Except.error RespondError.assignmentNotFound, s)) ∧
    (∀ (s : EngineState) (aid sid : Int) (acc : Bool) (k : Nat)
        (a : RepairAssignmentRow),
      get_repair_assignment_by_id s aid = some a → a.staff_id ≠ sid →
      accept_order s aid sid acc k =
        (Except.error RespondError.notOwnedByStaff, s)) ∧
    (∀ (s : EngineState) (aid sid : Int) (acc : Bool) (k : Nat)
        (a : RepairAssignmentRow),
      get_repair_assignment_by_id s aid = some a → a.staff_id = sid →
      a.status ≠ "pending" →
      accept_order s aid sid acc k =
        (Except.error RespondError.notPending, s)) ∧
    (∀ (s : EngineState) (aid sid : Int) (k : Nat)
        (a : RepairAssignmentRow) (o : RepairOrderRow),
      get_repair_assignment_by_id s aid = some a → a.staff_id = sid →
      a.status = "pending" →
      get_repair_order_by_id s a.order_id = some o →
      accept_order s aid sid true k =
        (Except.ok { a with status := "accepted" },
          orderUpdatedState (statusUpdatedState s aid "accepted") a.order_id
            RepairStatus.IN_PROGRESS o) ∧
      get_repair_order_by_id
          (orderUpdatedState (statusUpdatedState s aid "accepted") a.order_id
            RepairStatus.IN_PROGRESS o) a.order_id =
        some { o with status := some RepairStatus.IN_PROGRESS }) ∧
    (∀ (s : EngineState) (aid sid : Int) (k : Nat)
        (a : RepairAssignmentRow) (o : RepairOrderRow) (rst : String),
      get_repair_assignment_by_id s aid = some a → a.staff_id = sid →
      a.status = "pending" →
      get_repair_order_by_id s a.order_id = some o →
      o.required_staff_type = some rst →
      get_eligible_staff s rst (some sid) = [] →
      accept_order s aid sid false k =
        (Except.error (RespondError.reassignFailed AssignError.noEligibleStaff),
          statusUpdatedState s aid "rejected") ∧
      (EngineWF s → OrderAssignmentInv s →
        liveCount (statusUpdatedState s aid "rejected") a.order_id = 0)) ∧
    (∀ (s : EngineState) (aid sid : Int) (k : Nat)
        (a : RepairAssignmentRow) (o : RepairOrderRow) (rst : String)
        (e0 : StaffRow) (rest : List StaffRow),
      get_repair_assignment_by_id s aid = some a → a.staff_id = sid →
      a.status = "pending" →
      get_repair_order_by_id s a.order_id = some o →
      o.required_staff_type = some rst →
      get_eligible_staff s rst (some sid) = e0 :: rest →
      (∀ st ∈ s.staff, 0 < st.staff_id) →
      ∃ na ∈ (accept_order s aid sid false k).2.assignments,
        na.order_id = a.order_id ∧ na.status = "pending" ∧ na.staff_id ≠ sid ∧
        (accept_order s aid sid false k).1 =
          Except.ok { a with status := "rejected" }) := by
  refine ⟨?_, ?_, ?_, ?_, ?_, ?_⟩
  · intro s aid sid acc k hg
    exact accept_order_notFound s aid sid acc k hg
  · intro s aid sid acc k a hg hsid
    exact accept_order_forbidden s aid sid acc k a hg hsid
  · intro s aid sid acc k a hg hsid hst
    exact accept_order_notPending s aid sid acc k a hg hsid hst
  · intro s aid sid k a o hg hsid hst ho
    refine ⟨accept_order_accept_ok s aid sid k a o hg hsid hst ho, ?_⟩
    have hp : ∀ r : RepairOrderRow, (r.order_id == a.order_id) = true →
        (({ r with status := some RepairStatus.IN_PROGRESS } :
          RepairOrderRow).order_id == a.order_id) = true := fun r h => h
    have h := find?_condMap (fun r : RepairOrderRow => r.order_id == a.order_id)
      (fun r => { r with status := some RepairStatus.IN_PROGRESS }) hp
      s.orders o ho
    dsimp only at h
    unfold get_repair_order_by_id
    exact h
  · intro s aid sid k a o rst hg hsid hst ho hrst hel
    refine ⟨accept_order_reject_noEligible s aid sid k a o rst hg hsid hst
      ho hrst hel, ?_⟩
    intro hWF hinv
    exact reject_noEligible_liveCount s aid a hWF hinv hg hst
  · intro s aid sid k a o rst e0 rest hg hsid hst ho hrst hel hpos
    exact reject_ok_new_pending s aid sid k a o rst e0 rest hg hsid hst
      ho hrst hel hpos

/-- The Scenario B state: order 1 requires a welder, staff 7 and 8 are
welders, assignment 2 binds the order to staff 7 and is pending. -/
def scenarioBState : EngineState :=
  { emptyEngine with
    orders := [{ exampleOrder with status := some RepairStatus.PENDING }],
    staff := [
      { staff_id := 7, jobtype := "Welder", hourly_rate := 50 },
      { staff_id := 8, jobtype := "Welder", hourly_rate := 60 }],
    assignments := [⟨2, 1, 7, "pending", none⟩],
    next_id := 9 }

theorem respond_to_assignment_spec_witness :
    ∃ na ∈ (accept_order scenarioBState 2 7 false 0).2.assignments,
      na.order_id = (1 : Int) ∧ na.status = "pending" ∧ na.staff_id ≠ (7 : Int) ∧
      (accept_order scenarioBState 2 7 false 0).1 =
        Except.ok { assignment_id := 2, order_id := 1, staff_id := 7,
                    status := "rejected", time_worked := none } :=
  respond_to_assignment_spec.2.2.2.2.2 scenarioBState 2 7 0
    ⟨2, 1, 7, "pending", none⟩
    { exampleOrder with status := some RepairStatus.PENDING } "Welder"
    { staff_id := 8, jobtype := "Welder", hourly_rate := 60 } []
    (by decide) rfl rfl (by decide) rfl (by decide) (by decide)

/-! ## Claim C1: the lifecycle invariant -/

lemma respond_assignments_cases (s : EngineState) (aid sid : Int)
    (acc : Bool) (k : Nat) :
    (accept_order s aid sid acc k).2.assignments = s.assignments ∨
    ∃ raw : RepairAssignmentRow, ∃ ns : String,
      s.assignments.find? (fun r => r.assignment_id == aid) = some raw ∧
      (coerceAssignment raw).status = "pending" ∧
      (ns = "accepted" ∨ ns = "rejected") ∧
      ((accept_order s aid sid acc k).2.assignments =
          s.assignments.map
            (fun r => if r.assignment_id == aid then { r with status := ns } else r) ∨
        (ns = "rejected" ∧ ∃ na : RepairAssignmentRow,
          na.order_id = raw.order_id ∧ na.status = "pending" ∧
          (accept_order s aid sid acc k).2.assignments =
            s.assignments.map
              (fun r => if r.assignment_id == aid then { r with status := ns } else r)
              ++ [na])) := by
  cases hg : get_repair_assignment_by_id s aid with
  | none =>
    left
    rw [accept_order_notFound s aid sid acc k hg]
  | some a =>
    rcases get_assignment_raw s aid a hg with ⟨raw, hraw, hca⟩
    by_cases hsid : a.staff_id = sid
    · by_cases hst : a.status = "pending"
      · have hcs : (coerceAssignment raw).status = "pending" := by
          rw [hca]; exact hst
        cases acc with
        | true =>
          right
          refine ⟨raw, "accepted", hraw, hcs, Or.inl rfl, Or.inl ?_⟩
          rw [accept_order_accept_state s aid sid k a hg hsid hst]
          rw [update_repair_order_status_assignments]
          rfl
        | false =>
          right
          refine ⟨raw, "rejected", hraw, hcs, Or.inr rfl, ?_⟩
          have hstate := accept_order_reject_state s aid sid k a hg hsid hst
          rcases assign_order_state_cases (statusUpdatedState s aid "rejected")
            a.order_id (some sid) k with hcase | ⟨sid2, hcase⟩
          · left
            rw [hstate, hcase]
            rfl
          · right
            refine ⟨rfl, RepairAssignmentRow.mk
              (statusUpdatedState s aid "rejected").next_id a.order_id sid2
              "pending" none, ?_, rfl, ?_⟩
            · show a.order_id = raw.order_id
              rw [← hca]
              rfl
            · rw [hstate, hcase]
              rfl
      · left
        rw [accept_order_notPending s aid sid acc k a hg hsid hst]
    · left
      rw [accept_order_forbidden s aid sid acc k a hg hsid]

/-- The id, order, and status of an assignment row: the components the
lifecycle invariant reads. -/
def statusKey (r : RepairAssignmentRow) : Int × Int × String :=
  (r.assignment_id, r.order_id, r.status)

lemma update_repair_assignment_time_statusKey (s : EngineState) (aid : Int)
    (tw : ℚ) :
    (update_repair_assignment_time s aid tw).2.assignments.map statusKey =
      s.assignments.map statusKey := by
  unfold update_repair_assignment_time
  cases hf : s.assignments.find? (fun a => a.assignment_id == aid) with
  | none => rfl
  | some oldRow =>
    dsimp only
    rw [List.map_map]
    apply List.map_congr_left
    intro r _
    by_cases hc : (r.assignment_id == aid) = true <;>
      simp [Function.comp, statusKey, hc]

lemma applyTimeUpdates_statusKey (tl : List (Int × ℚ)) :
    ∀ s : EngineState,
      (applyTimeUpdates s tl).2.assignments.map statusKey =
        s.assignments.map statusKey := by
  induction tl with
  | nil => intro s; rfl
  | cons p rest ih =>
    intro s
    obtain ⟨paid, ptw⟩ := p
    unfold applyTimeUpdates
    rcases hu : update_repair_assignment_time s paid ptw with ⟨res, s1⟩
    have h1 := update_repair_assignment_time_statusKey s paid ptw
    rw [hu] at h1
    cases res with
    | none => exact h1
    | some a1 =>
      dsimp only
      rw [ih s1]
      exact h1

lemma finish_assignments_statusKey (s : EngineState) (order_id : Int)
    (tl : List (Int × ℚ)) :
    (finish_repair_order s order_id tl).2.assignments.map statusKey =
      s.assignments.map statusKey := by
  unfold finish_repair_order
  cases ho : get_repair_order_by_id s order_id with
  | none => rfl
  | some o =>
    dsimp only
    by_cases hc : (o.status == some RepairStatus.COMPLETED) = true
    · rw [if_pos hc]
    · rw [if_neg hc]
      rcases ha : applyTimeUpdates s tl with ⟨res, s1⟩
      have h1 := applyTimeUpdates_statusKey tl s
      rw [ha] at h1
      cases res with
      | error e => exact h1
      | ok u =>
        dsimp only
        rcases hu2 : update_repair_order_status s1 order_id
          RepairStatus.COMPLETED with ⟨res2, s2⟩
        have h2 := update_repair_order_status_assignments s1 order_id
          RepairStatus.COMPLETED
        rw [hu2] at h2
        cases res2 with
        | none =>
          dsimp only
          rw [h2]
          exact h1
        | some o2 =>
          dsimp only
          rw [h2]
          exact h1

lemma liveCountL_eq_of_statusKey (l l' : List RepairAssignmentRow)
    (h : l.map statusKey = l'.map statusKey) (oid : Int) :
    liveCountL l oid = liveCountL l' oid := by
  have hcount : ∀ m : List RepairAssignmentRow,
      liveCountL m oid = (m.map statusKey).countP
        (fun key => key.2.1 == oid &&
          (key.2.2 == "pending" || key.2.2 == "accepted")) := by
    intro m
    unfold liveCountL
    rw [List.countP_map]
    rfl
  rw [hcount l, hcount l', h]

lemma terminality_of_statusKey (l l' : List RepairAssignmentRow)
    (h : l.map statusKey = l'.map statusKey) :
    ∀ x ∈ l, ∃ x' ∈ l', x'.assignment_id = x.assignment_id ∧
      x'.status = x.status := by
  intro x hx
  have hm : statusKey x ∈ l'.map statusKey := by
    rw [← h]
    exact List.mem_map_of_mem statusKey hx
  rcases List.mem_map.mp hm with ⟨x', hx', hk⟩
  unfold statusKey at hk
  rw [Prod.mk.injEq, Prod.mk.injEq] at hk
  exact ⟨x', hx', hk.1, hk.2.2⟩

lemma inv_append_fresh (l : List RepairAssignmentRow)
    (na : RepairAssignmentRow) (n : Int)
    (hlt : ∀ a ∈ l, a.order_id < n) (hna : na.order_id = n)
    (hinv : ∀ oid : Int, liveCountL l oid ≤ 1) :
    ∀ oid : Int, liveCountL (l ++ [na]) oid ≤ 1 := by
  intro oid
  rw [liveCountL_append_single]
  by_cases hoo : (na.order_id == oid) = true
  · have hoid : oid = n := by
      rw [← hna]
      exact (eq_of_beq hoo).symm
    rw [hoid, liveCountL_zero_of_lt l n hlt]
    split <;> omega
  · have hoo' : (na.order_id == oid) = false := by simpa using hoo
    rw [show (if (na.order_id == oid && isLive na) = true then 1 else 0) = 0
      from by rw [hoo']; rfl]
    have := hinv oid
    omega

/-- Claim C1: across the lifecycle operations (order generation with
automatic assignment, staff accept/reject, order completion) a
well-formed store keeps at most one live — pending or accepted —
assignment per order; an assignment whose status left `pending` never
changes status again; and a rejection either puts exactly one new pending
assignment (for a different staff member) on the order, or, with no
eligible staff left, leaves the order with no live assignment. -/
theorem at_most_one_live_assignment_per_order :
    (∀ (s s' : EngineState), EngineWF s → EngineStep s s' →
      (OrderAssignmentInv s → OrderAssignmentInv s') ∧
      (∀ x ∈ s.assignments, x.status ≠ "pending" →
        ∃ x' ∈ s'.assignments, x'.assignment_id = x.assignment_id ∧
          x'.status = x.status)) ∧
    (∀ (s : EngineState) (aid sid : Int) (k : Nat)
        (a : RepairAssignmentRow) (o : RepairOrderRow) (rst : String),
      EngineWF s → OrderAssignmentInv s →
      get_repair_assignment_by_id s aid = some a → a.staff_id = sid →
      a.status = "pending" →
      get_repair_order_by_id s a.order_id = some o →
      o.required_staff_type = some rst →
      (get_eligible_staff s rst (some sid) = [] →
        liveCount (accept_order s aid sid false k).2 a.order_id = 0) ∧
      (∀ (e0 : StaffRow) (rest : List StaffRow),
        get_eligible_staff s rst (some sid) = e0 :: rest →
        ∃ na ∈ (accept_order s aid sid false k).2.assignments,
          na.order_id = a.order_id ∧ na.status = "pending" ∧
          na.staff_id ≠ sid)) := by
  constructor
  · intro s s' hWF hstep
    cases hstep with
    | respond aid sid acc k =>
      rcases respond_assignments_cases s aid sid acc k with
        hsame | ⟨raw, ns, hraw, hcs, hns, hstate⟩
      · constructor
        · intro hinv oid
          rw [liveCount_eq_liveCountL, hsame]
          exact hinv oid
        · intro x hx hxs
          refine ⟨x, ?_, rfl, rfl⟩
          rw [hsame]
          exact hx
      · have hrawmem := List.mem_of_find?_eq_some hraw
        have hrawst : raw.status = "pending" :=
          raw_status_pending s raw hWF hrawmem hcs
        have hlive : isLive raw = true := by simp [isLive, hrawst]
        have hrawid : (raw.assignment_id == aid) = true := by
          simpa using List.find?_some hraw
        constructor
        · intro hinv oid
          have hc := hinv oid
          rw [liveCount_eq_liveCountL] at hc
          rw [liveCount_eq_liveCountL]
          have hcount := liveCountL_statusMap s.assignments aid ns raw oid
            hraw hWF.assignment_ids_nodup
          by_cases hoo : (raw.order_id == oid) = true
          · have h1 : (if (raw.order_id == oid && isLive raw) = true
                then 1 else 0) = 1 := by rw [hoo, hlive]; rfl
            rcases hns with hA | hR
            · subst hA
              have h2 : (if (raw.order_id == oid &&
                  isLive { raw with status := "accepted" }) = true
                  then 1 else 0) = 1 := by rw [hoo]; rfl
              rw [h1, h2] at hcount
              rcases hstate with hmap | ⟨hns2, _⟩
              · rw [hmap]; omega
              · exact absurd hns2 (by decide)
            · subst hR
              have h2 : (if (raw.order_id == oid &&
                  isLive { raw with status := "rejected" }) = true
                  then 1 else 0) = 0 := by rw [hoo]; rfl
              rw [h1, h2] at hcount
              rcases hstate with hmap | ⟨_, na, hnaord, hnast, happend⟩
              · rw [hmap]; omega
              · rw [happend, liveCountL_append_single]
                have hnal : isLive na = true := by simp [isLive, hnast]
                have h3 : (if (na.order_id == oid && isLive na) = true
                    then 1 else 0) = 1 := by
                  rw [show (na.order_id == oid) = true from by
                    rw [hnaord]; exact hoo, hnal]
                  rfl
                rw [h3]
                omega
          · have hoo' : (raw.order_id == oid) = false := by simpa using hoo
            have h1 : (if (raw.order_id == oid && isLive raw) = true
                then 1 else 0) = 0 := by rw [hoo']; rfl
            have h2 : (if (raw.order_id == oid &&
                isLive { raw with status := ns }) = true
                then 1 else 0) = 0 := by rw [hoo']; rfl
            rw [h1, h2] at hcount
            rcases hstate with hmap | ⟨_, na, hnaord, hnast, happend⟩
            · rw [hmap]; omega
            · rw [happend, liveCountL_append_single]
              have h3 : (if (na.order_id == oid && isLive na) = true
                  then 1 else 0) = 0 := by
                rw [show (na.order_id == oid) = false from by
                  rw [hnaord]; exact hoo']
                rfl
              rw [h3]
              omega
        · intro x hx hxs
          have hxid : (x.assignment_id == aid) = false := by
            cases hb : x.assignment_id == aid with
            | false => rfl
            | true =>
              exfalso
              have hx_eq : x = raw := by
                apply List.inj_on_of_nodup_map hWF.assignment_ids_nodup hx hrawmem
                have h1 : x.assignment_id = aid := by simpa using hb
                have h2 : raw.assignment_id = aid := by simpa using hrawid
                rw [h1, h2]
              rw [hx_eq] at hxs
              exact hxs hrawst
          have hfx : (if (x.assignment_id == aid) = true
              then { x with status := ns } else x) = x := by
            rw [hxid]
            rfl
          have hxmem : x ∈ s.assignments.map
              (fun r => if r.assignment_id == aid
                then { r with status := ns } else r) := by
            have hm := List.mem_map_of_mem
              (fun r => if r.assignment_id == aid
                then { r with status := ns } else r) hx
            dsimp only at hm
            rw [hfx] at hm
            exact hm
          rcases hstate with hmap | ⟨_, na, _, _, happend⟩
          · exact ⟨x, by rw [hmap]; exact hxmem, rfl, rfl⟩
          · exact ⟨x, by rw [happend]; exact List.mem_append_left _ hxmem,
              rfl, rfl⟩
    | generate vehicle_id customer_id request_id required_staff_type st rem k =>
      rcases assign_order_state_cases
        (create_repair_order s vehicle_id customer_id request_id
          required_staff_type st rem).2
        (create_repair_order s vehicle_id customer_id request_id
          required_staff_type st rem).1.order_id none k with hcase | ⟨sid2, hcase⟩
      · constructor
        · intro hinv oid
          rw [liveCount_eq_liveCountL, hcase]
          exact hinv oid
        · intro x hx hxs
          refine ⟨x, ?_, rfl, rfl⟩
          rw [hcase]
          exact hx
      · constructor
        · intro hinv oid
          rw [liveCount_eq_liveCountL, hcase]
          exact inv_append_fresh s.assignments _ s.next_id
            hWF.assignment_order_lt rfl (fun oid2 => hinv oid2) oid
        · intro x hx hxs
          refine ⟨x, ?_, rfl, rfl⟩
          rw [hcase]
          exact List.mem_append_left _ hx
    | finish order_id time_list =>
      have h := finish_assignments_statusKey s order_id time_list
      constructor
      · intro hinv oid
        rw [liveCount_eq_liveCountL,
          liveCountL_eq_of_statusKey _ _ h oid]
        exact hinv oid
      · intro x hx hxs
        rcases terminality_of_statusKey s.assignments
          (finish_repair_order s order_id time_list).2.assignments h.symm
          x hx with ⟨x', hx', h1, h2⟩
        exact ⟨x', hx', h1, h2⟩
  · intro s aid sid k a o rst hWF hinv hg hsid hst ho hrst
    constructor
    · intro hel
      rw [accept_order_reject_noEligible s aid sid k a o rst hg hsid hst
        ho hrst hel]
      exact reject_noEligible_liveCount s aid a hWF hinv hg hst
    · intro e0 rest hel
      rcases reject_ok_new_pending s aid sid k a o rst e0 rest hg hsid hst
        ho hrst hel hWF.staff_id_pos with ⟨na, hmem, h1, h2, h3, _⟩
      exact ⟨na, hmem, h1, h2, h3⟩

theorem at_most_one_live_assignment_per_order_witness :
    ((OrderAssignmentInv scenarioBState →
      OrderAssignmentInv (accept_order scenarioBState 2 7 false 0).2) ∧
    (∀ x ∈ scenarioBState.assignments, x.status ≠ "pending" →
      ∃ x' ∈ (accept_order scenarioBState 2 7 false 0).2.assignments,
        x'.assignment_id = x.assignment_id ∧ x'.status = x.status)) :=
  at_most_one_live_assignment_per_order.1 scenarioBState
    (accept_order scenarioBState 2 7 false 0).2
    ⟨by decide, by decide, by decide, by decide, by decide, by decide⟩
    (EngineStep.respond scenarioBState 2 7 false 0)

end AutoCare
